import Mathlib

/-!
Shallow embedding of the crustycards backend game service (Rust) for
specification checking.  Each definition translates one Rust item from the
repository sources; doc comments name the source file and item.  Randomness
(thread_rng shuffles, random judge selection) is threaded explicitly: every
operation that shuffles takes the permutation actually drawn as a function
argument, and every operation that samples takes the sampled number as an
argument.  Rust `usize` values are modelled as `Nat` with explicit wrapping
where the source can underflow or cast.  Fallible code returns
`Except StatusMsg`; code that can panic returns `RunResult`.
-/

namespace CrustyCards

/-- gRPC status, from `tonic::Status` as used by the service: only the
constructors the game service produces. -/
inductive StatusMsg : Type where
  | invalidArgument (msg : String)
  | notFound (msg : String)
  | unknownStatus (msg : String)
  deriving DecidableEq, Repr

/-- Result of running a Rust method that may return early with a `Status`
error or panic (`unwrap` on `None`/`Err`).  `panicked` models a panic. -/
inductive RunResult (α : Type) : Type where
  | panicked
  | err (e : StatusMsg)
  | ok (a : α)
  deriving DecidableEq, Repr

/-- `true` exactly for `RunResult.ok`. -/
def RunResult.isOk {α : Type} : RunResult α → Bool
  | .ok _ => true
  | _ => false

/-- Two's-complement wrap of 64-bit `usize` subtraction `a - b`
(for `a b < 2^64`, always the case for the list lengths it is applied to). -/
def usizeSub (a b : Nat) : Nat :=
  if b ≤ a then a - b else a + 2 ^ 64 - b

/-- Cast `i32 as usize` on a 64-bit target: sign-extend then reinterpret,
i.e. reduce modulo `2^64`. -/
def usizeOfInt (i : Int) : Nat :=
  (i.emod (2 ^ 64)).toNat

/-- Rust `str::trim`: drop whitespace from both ends. -/
def strTrim (s : String) : String :=
  ⟨((s.toList.dropWhile Char.isWhitespace).reverse.dropWhile
      Char.isWhitespace).reverse⟩

/-- `User` proto (`name`, `display_name`; the two timestamp fields are never
read by any embedded operation and are omitted). -/
structure User : Type where
  name : String
  displayName : String
  deriving DecidableEq, Repr

/-- `playable_white_card::Card`: the three white-card variants
(`CustomWhiteCard {name, text}`, `BlankWhiteCard {id, open_text}`,
`DefaultWhiteCard {name, text}`). -/
inductive WCard : Type where
  | customWhiteCard (name text : String)
  | blankWhiteCard (id openText : String)
  | defaultWhiteCard (name text : String)
  deriving DecidableEq, Repr

/-- `PlayableWhiteCard` proto: an optional oneof wrapper. -/
structure PlayableWhiteCard : Type where
  card : Option WCard
  deriving DecidableEq, Repr

/-- `black_card_in_round::Card`: custom and default black cards, each with an
`answer_fields` count (`i32` in the proto). -/
inductive BCard : Type where
  | customBlackCard (name text : String) (answerFields : Int)
  | defaultBlackCard (name text : String) (answerFields : Int)
  deriving DecidableEq, Repr

/-- `BlackCardInRound` proto. -/
structure BlackCardInRound : Type where
  card : Option BCard
  deriving DecidableEq, Repr

/-- `game_service/src/game/player_id.rs`: `PlayerId`. -/
inductive PlayerId : Type where
  | realUser (userName : String)
  | artificialPlayer (id : String)
  deriving DecidableEq, Repr

/-- `player::Identifier` proto oneof. -/
inductive Identifier : Type where
  | user (u : User)
  | artificialUser (id displayName : String)
  deriving DecidableEq, Repr

/-- `Player` proto (`identifier`, `join_time`, `score`).  Proto timestamps are
modelled as `Nat`. -/
structure Player : Type where
  identifier : Option Identifier
  joinTime : Option Nat
  score : Int
  deriving DecidableEq, Repr

/-- `ChatMessage` proto. -/
structure ChatMessage : Type where
  user : Option User
  text : String
  createTime : Option Nat
  deriving DecidableEq, Repr

/-- `game_view::Stage`. -/
inductive Stage : Type where
  | notRunning
  | playPhase
  | judgePhase
  | roundEndPhase
  deriving DecidableEq, Repr

/-- `game_config::blank_white_card_config::Behavior` enum values
(proto numbering: UNSPECIFIED = 0, DISABLED = 1, OPEN_TEXT = 2). -/
inductive Behavior : Type where
  | unspecified
  | disabled
  | openText
  deriving DecidableEq, Repr

/-- `Behavior::from_i32`. -/
def Behavior.fromI32 (i : Int) : Option Behavior :=
  if i = 0 then some .unspecified
  else if i = 1 then some .disabled
  else if i = 2 then some .openText
  else none

/-- `blank_white_card_config::BlankWhiteCardsAdded` oneof.  The `Percentage`
variant carries an `f64` in the source; no embedded operation reads the
payload, so it is omitted (floating point is out of scope). -/
inductive BlankWhiteCardsAdded : Type where
  | cardCount (k : Int)
  | percentage
  deriving DecidableEq, Repr

/-- `BlankWhiteCardConfig` proto (`behavior` is a raw `i32`). -/
structure BlankWhiteCardConfig : Type where
  behavior : Int
  blankWhiteCardsAdded : Option BlankWhiteCardsAdded
  deriving DecidableEq, Repr

/-- `game_config::EndCondition` oneof. -/
inductive EndCondition : Type where
  | maxScore (k : Int)
  | endlessMode
  deriving DecidableEq, Repr

/-- `shared/src/proto_validation.rs`: `ValidatedGameConfig` (the validated
fields; the constructor's checks are not needed by the claims under test). -/
structure ValidatedGameConfig : Type where
  displayName : String
  maxPlayers : Nat
  endCondition : EndCondition
  handSize : Nat
  customCardpackNames : List String
  defaultCardpackNames : List String
  blankWhiteCardConfig : BlankWhiteCardConfig
  deriving DecidableEq, Repr

/-- `GameConfig` proto as rebuilt by `ValidatedGameConfig::raw_config`. -/
structure GameConfig : Type where
  displayName : String
  maxPlayers : Int
  endCondition : Option EndCondition
  handSize : Int
  customCardpackNames : List String
  defaultCardpackNames : List String
  blankWhiteCardConfig : Option BlankWhiteCardConfig
  deriving DecidableEq, Repr

/-- `ValidatedGameConfig::raw_config`. -/
def ValidatedGameConfig.rawConfig (c : ValidatedGameConfig) : GameConfig :=
  { displayName := c.displayName
    maxPlayers := (c.maxPlayers : Int)
    endCondition := some c.endCondition
    handSize := (c.handSize : Int)
    customCardpackNames := c.customCardpackNames
    defaultCardpackNames := c.defaultCardpackNames
    blankWhiteCardConfig := some c.blankWhiteCardConfig }

/-! ## `game_service/src/helper.rs` -/

/-- Card-type tag of `PlayableWhiteCardIdentifier`. -/
inductive PlayableCardType : Type where
  | custom
  | blank
  | defaultCard
  deriving DecidableEq, Repr

/-- `helper.rs`: `get_playable_white_card_identifier` — the `(tag, id)` pair,
where the id is `name` for custom/default cards and `id` for blanks. -/
def getPlayableWhiteCardIdentifier (c : PlayableWhiteCard) :
    Option (PlayableCardType × String) :=
  match c.card with
  | some (.customWhiteCard name _) => some (.custom, name)
  | some (.blankWhiteCard id _) => some (.blank, id)
  | some (.defaultWhiteCard name _) => some (.defaultCard, name)
  | none => none

/-- `helper.rs`: `playable_white_cards_have_same_identifier`. -/
def playableWhiteCardsHaveSameIdentifier
    (c1 c2 : PlayableWhiteCard) : Bool :=
  match getPlayableWhiteCardIdentifier c1, getPlayableWhiteCardIdentifier c2 with
  | some i1, some i2 => i1 = i2
  | _, _ => false

/-- `helper.rs`: `playable_white_card_is_in_list`. -/
def playableWhiteCardIsInList
    (c : PlayableWhiteCard) (cards : List PlayableWhiteCard) : Bool :=
  cards.any (fun c2 => playableWhiteCardsHaveSameIdentifier c c2)

/-- `helper.rs`: `get_answer_fields_from_black_card_in_round`
(`answer_fields as usize`; `None` card gives 0). -/
def getAnswerFieldsFromBlackCardInRound (c : BlackCardInRound) : Nat :=
  match c.card with
  | some (.customBlackCard _ _ af) => usizeOfInt af
  | some (.defaultBlackCard _ _ af) => usizeOfInt af
  | none => 0

/-! ## `game_service/src/game/white_card_deck.rs`

The draw pile is a `Vec` whose top is the back (`pop` takes the last
element).  `thread_rng` shuffles are modelled by an explicit permutation
argument `π` applied at each reshuffle; theorems that need it assume `π`
preserves length (or is a permutation). -/

/-- `WhiteCardDeck`. -/
structure WhiteCardDeck : Type where
  drawPile : List PlayableWhiteCard
  discardPile : List PlayableWhiteCard
  deriving DecidableEq, Repr

/-- `WhiteCardDeck::sanitize_card`: clear a blank card's `open_text`. -/
def sanitizeCard (c : PlayableWhiteCard) : PlayableWhiteCard :=
  match c.card with
  | some (.blankWhiteCard id _) => { card := some (.blankWhiteCard id "") }
  | _ => c

/-- `WhiteCardDeck::shuffle_and_reset`: drain the discard pile into the draw
pile, then shuffle; the permutation drawn from `thread_rng` is `π`. -/
def WhiteCardDeck.shuffleAndReset
    (π : List PlayableWhiteCard → List PlayableWhiteCard)
    (d : WhiteCardDeck) : WhiteCardDeck :=
  { drawPile := π (d.drawPile ++ d.discardPile), discardPile := [] }

/-- `WhiteCardDeck::draw_one`: reshuffle if the draw pile is empty, then pop
the last element. -/
def WhiteCardDeck.drawOne
    (π : List PlayableWhiteCard → List PlayableWhiteCard)
    (d : WhiteCardDeck) : Option (PlayableWhiteCard × WhiteCardDeck) :=
  let d1 := if d.drawPile.isEmpty then d.shuffleAndReset π else d
  match d1.drawPile.getLast? with
  | none => none
  | some c => some (c, { d1 with drawPile := d1.drawPile.dropLast })

/-- Loop body of `WhiteCardDeck::draw_many`: draw `amount` cards one at a
time; `none` models the `draw_one().unwrap()` panic. -/
def WhiteCardDeck.drawManyGo
    (π : List PlayableWhiteCard → List PlayableWhiteCard) :
    Nat → WhiteCardDeck → Option (List PlayableWhiteCard × WhiteCardDeck)
  | 0, d => some ([], d)
  | n + 1, d =>
    match d.drawOne π with
    | none => none
    | some (c, d1) =>
      match WhiteCardDeck.drawManyGo π n d1 with
      | none => none
      | some (cs, d2) => some (c :: cs, d2)

/-- `WhiteCardDeck::draw_many`: returns exactly `amount` cards, or `none`
when `draw_pile.len() + discard_pile.len() < amount`. -/
def WhiteCardDeck.drawMany
    (π : List PlayableWhiteCard → List PlayableWhiteCard)
    (amount : Nat) (d : WhiteCardDeck) :
    Option (List PlayableWhiteCard × WhiteCardDeck) :=
  if d.drawPile.length + d.discardPile.length < amount then none
  else d.drawManyGo π amount

/-- Number of cards held by a deck across both piles. -/
def WhiteCardDeck.size (d : WhiteCardDeck) : Nat :=
  d.drawPile.length + d.discardPile.length

/-- `WhiteCardDeck::discard_many`: sanitize each card, then append to the
discard pile. -/
def WhiteCardDeck.discardMany
    (cards : List PlayableWhiteCard) (d : WhiteCardDeck) : WhiteCardDeck :=
  { d with discardPile := d.discardPile ++ cards.map sanitizeCard }

/-! ## Association lists standing in for `HashMap<PlayerId, _>`

Rust `HashMap`s are modelled as association lists whose order is part of the
state (a `HashMap`'s iteration order is arbitrary but fixed for an unmutated
map, which is exactly what a state-carried list order captures). -/

/-- `HashMap::get`. -/
def alistGet {α : Type} (k : PlayerId) (l : List (PlayerId × α)) : Option α :=
  (l.find? (fun p => p.1 = k)).map (fun p => p.2)

/-- `HashMap::insert`: replace the value if the key is present, otherwise
append the pair. -/
def alistInsert {α : Type} (k : PlayerId) (v : α)
    (l : List (PlayerId × α)) : List (PlayerId × α) :=
  if l.any (fun p => p.1 = k) then
    l.map (fun p => if p.1 = k then (k, v) else p)
  else l ++ [(k, v)]

/-- `HashMap::remove` (dropping the returned value). -/
def alistErase {α : Type} (k : PlayerId) (l : List (PlayerId × α)) :
    List (PlayerId × α) :=
  l.filter (fun p => p.1 ≠ k)

/-! ## `game_service/src/game/white_card_gameplay_manager.rs` -/

/-- `WhiteCardGameplayManager`. -/
structure WhiteCardGameplayManager : Type where
  handsAndPlayedCards : List (PlayerId × List PlayableWhiteCard)
  playedCards : List (PlayerId × List PlayableWhiteCard)
  whiteCardDeck : WhiteCardDeck
  handSize : Nat
  deriving DecidableEq, Repr

namespace WhiteCardGameplayManager

/-- `add_player`: insert an empty hand. -/
def addPlayer (pid : PlayerId) (m : WhiteCardGameplayManager) :
    WhiteCardGameplayManager :=
  { m with handsAndPlayedCards := alistInsert pid [] m.handsAndPlayedCards }

/-- `remove_player`: discard the removed hand back to the deck (nothing
happens to `played_cards`, faithfully to the source). -/
def removePlayer (pid : PlayerId) (m : WhiteCardGameplayManager) :
    WhiteCardGameplayManager :=
  match alistGet pid m.handsAndPlayedCards with
  | none => m
  | some hand =>
    { m with
      handsAndPlayedCards := alistErase pid m.handsAndPlayedCards
      whiteCardDeck := m.whiteCardDeck.discardMany hand }

/-- `return_played_cards_to_hands`: clear all staged sets. -/
def returnPlayedCardsToHands (m : WhiteCardGameplayManager) :
    WhiteCardGameplayManager :=
  { m with playedCards := [] }

/-- `discard_player_hands`: every hand is drained into the deck's discard
pile (`discard_many` empties the source `Vec` by `append`). -/
def discardPlayerHands (m : WhiteCardGameplayManager) :
    WhiteCardGameplayManager :=
  { m with
    handsAndPlayedCards := m.handsAndPlayedCards.map (fun p => (p.1, []))
    whiteCardDeck :=
      m.handsAndPlayedCards.foldl
        (fun d p => d.discardMany p.2) m.whiteCardDeck }

/-- `get_hand_belonging_to_player`: the hand minus the staged subset
(filtered by card identifier). -/
def getHandBelongingToPlayer (pid : PlayerId)
    (m : WhiteCardGameplayManager) : Option (List PlayableWhiteCard) :=
  match alistGet pid m.handsAndPlayedCards with
  | none => none
  | some handAndPlayed =>
    match alistGet pid m.playedCards with
    | some played =>
      some (handAndPlayed.filter (fun c => ¬ playableWhiteCardIsInList c played))
    | none => some handAndPlayed

/-- Loop body of `play_for_artificial_players`: an artificial player without
a staged set whose hand holds at least `answer_fields` cards stages the
first `answer_fields` cards of their hand. -/
def autoPlayStep (answerFields : Nat)
    (played : List (PlayerId × List PlayableWhiteCard))
    (p : PlayerId × List PlayableWhiteCard) :
    List (PlayerId × List PlayableWhiteCard) :=
  match p.1 with
  | .artificialPlayer _ =>
    if (alistGet p.1 played).isSome then played
    else if answerFields ≤ p.2.length then
      alistInsert p.1 (p.2.take answerFields) played
    else played
  | .realUser _ => played

/-- `play_for_artificial_players`. -/
def playForArtificialPlayers (currentBlackCard : BlackCardInRound)
    (m : WhiteCardGameplayManager) : WhiteCardGameplayManager :=
  { m with
    playedCards :=
      m.handsAndPlayedCards.foldl
        (autoPlayStep (getAnswerFieldsFromBlackCardInRound currentBlackCard))
        m.playedCards }

/-- `player_has_played_this_round`. -/
def playerHasPlayedThisRound (pid : PlayerId)
    (m : WhiteCardGameplayManager) : Bool :=
  (alistGet pid m.playedCards).isSome

/-- `get_card_from_player_hand`: find the card in the player's visible hand
with the same identifier as the submitted card. -/
def getCardFromPlayerHand (pid : PlayerId) (card : PlayableWhiteCard)
    (m : WhiteCardGameplayManager) : Option PlayableWhiteCard :=
  match m.getHandBelongingToPlayer pid with
  | some hand =>
    hand.find? (fun handCard =>
      playableWhiteCardsHaveSameIdentifier card handCard)
  | none => none

/-- Per-card field validation of `play_cards_for_player`: custom and
default cards need a non-empty `name`; a blank needs the game's blank
behavior to be `OpenText`, a non-empty `id` and non-blank `open_text`. -/
def validateSubmittedCard (config : ValidatedGameConfig)
    (card : PlayableWhiteCard) : Except StatusMsg Unit :=
  match card.card with
  | some (.customWhiteCard name _) =>
    if name.isEmpty then
      .error (.invalidArgument
        "Custom white cards require a value for the name property.")
    else .ok ()
  | some (.blankWhiteCard id openText) =>
    if (Behavior.fromI32 config.blankWhiteCardConfig.behavior).getD
        .unspecified ≠ .openText then
      .error (.invalidArgument
        "This game does not support open-text blank white cards.")
    else if id.isEmpty ∨ (strTrim openText).isEmpty then
      .error (.invalidArgument
        "Blank white cards require values for both id and open_text properties.")
    else .ok ()
  | some (.defaultWhiteCard name _) =>
    if name.isEmpty then
      .error (.invalidArgument
        "Default white cards require a value for the name property.")
    else .ok ()
  | none => .ok ()

/-- Per-card loop of `play_cards_for_player`: validate the submitted card's
fields, then exchange it for the hand's copy. -/
def playCardsLoop (pid : PlayerId) (config : ValidatedGameConfig)
    (m : WhiteCardGameplayManager) :
    List PlayableWhiteCard → Except StatusMsg (List PlayableWhiteCard)
  | [] => .ok []
  | card :: rest =>
    match validateSubmittedCard config card with
    | .error e => .error e
    | .ok _ =>
      match m.getCardFromPlayerHand pid card with
      | some handCard =>
        match playCardsLoop pid config m rest with
        | .error e => .error e
        | .ok cs => .ok (handCard :: cs)
      | none =>
        .error (.invalidArgument "One or more cards is not in the user's hand.")

/-- `play_cards_for_player`: count check, per-card validation, exchange each
submitted card for the hand's trusted copy, then stage the result.  Returns
the (result, state) pair of the `&mut self` method. -/
def playCardsForPlayer (pid : PlayerId) (cards : List PlayableWhiteCard)
    (currentBlackCard : BlackCardInRound) (config : ValidatedGameConfig)
    (m : WhiteCardGameplayManager) :
    Except StatusMsg Unit × WhiteCardGameplayManager :=
  let answerFields := getAnswerFieldsFromBlackCardInRound currentBlackCard
  if cards.length ≠ answerFields then
    (.error (.invalidArgument
      ("Must play exactly " ++ toString answerFields ++ " cards")), m)
  else
    match playCardsLoop pid config m cards with
    | .error e => (.error e, m)
    | .ok playedCards =>
      (.ok (), { m with playedCards := alistInsert pid playedCards m.playedCards })

/-- `unplay_cards_for_player`. -/
def unplayCardsForPlayer (pid : PlayerId) (m : WhiteCardGameplayManager) :
    WhiteCardGameplayManager :=
  { m with playedCards := alistErase pid m.playedCards }

/-- `discard_played_cards`: remove every staged card from its owner's hand
(by identifier), drain all staged sets into the deck's discard pile, and
clear the staging map. -/
def discardPlayedCards (m : WhiteCardGameplayManager) :
    WhiteCardGameplayManager :=
  { m with
    handsAndPlayedCards :=
      m.handsAndPlayedCards.map (fun p =>
        match alistGet p.1 m.playedCards with
        | some played =>
          (p.1, p.2.filter (fun c => ¬ playableWhiteCardIsInList c played))
        | none => p)
    playedCards := []
    whiteCardDeck :=
      m.playedCards.foldl (fun d p => d.discardMany p.2) m.whiteCardDeck }

/-- Loop of `draw_hands_to_full` over the hands map, threading the deck;
`none` models the `draw_many(..).unwrap()` panic.  The amount needed is
`max(hand_size - hand.len(), 0)` on `usize`, whose subtraction wraps. -/
def drawHandsGo (π : List PlayableWhiteCard → List PlayableWhiteCard)
    (handSize : Nat) :
    List (PlayerId × List PlayableWhiteCard) → WhiteCardDeck →
    Option (List (PlayerId × List PlayableWhiteCard) × WhiteCardDeck)
  | [], d => some ([], d)
  | (pid, hand) :: rest, d =>
    let amountNeeded := max (usizeSub handSize hand.length) 0
    if 0 < amountNeeded then
      match d.drawMany π amountNeeded with
      | none => none
      | some (cards, d1) =>
        match drawHandsGo π handSize rest d1 with
        | none => none
        | some (hands, d2) => some ((pid, hand ++ cards) :: hands, d2)
    else
      match drawHandsGo π handSize rest d with
      | none => none
      | some (hands, d2) => some ((pid, hand) :: hands, d2)

/-- Total number of cards `draw_hands_to_full` will request: the sum over
all hands of `max(hand_size - hand.len(), 0)` (on `usize`). -/
def totalRefillNeed (handSize : Nat)
    (hands : List (PlayerId × List PlayableWhiteCard)) : Nat :=
  (hands.map (fun p => max (usizeSub handSize p.2.length) 0)).sum

/-- `draw_hands_to_full`. -/
def drawHandsToFull (π : List PlayableWhiteCard → List PlayableWhiteCard)
    (m : WhiteCardGameplayManager) : Option WhiteCardGameplayManager :=
  match drawHandsGo π m.handSize m.handsAndPlayedCards m.whiteCardDeck with
  | none => none
  | some (hands, d) =>
    some { m with handsAndPlayedCards := hands, whiteCardDeck := d }

/-- `discard_played_cards_and_draw_to_full`. -/
def discardPlayedCardsAndDrawToFull
    (π : List PlayableWhiteCard → List PlayableWhiteCard)
    (m : WhiteCardGameplayManager) : Option WhiteCardGameplayManager :=
  m.discardPlayedCards.drawHandsToFull π

end WhiteCardGameplayManager

/-! ## `game_service/src/game/player_manager.rs` -/

/-- `PlayerId::from_player_proto`. -/
def playerIdFromPlayerProto (p : Player) : Option PlayerId :=
  match p.identifier with
  | some (.user u) => some (.realUser u.name)
  | some (.artificialUser id _) => some (.artificialPlayer id)
  | none => none

/-- `PlayerManager`. -/
structure PlayerManager : Type where
  realPlayers : List Player
  artificialPlayers : List Player
  queuedRealPlayers : List Player
  queuedArtificialPlayers : List Player
  judgePlayerIndex : Option Nat
  deriving DecidableEq, Repr

namespace PlayerManager

/-- `get_player`: search `real_players` then `artificial_players` for the
player whose proto id matches. -/
def getPlayer (pid : PlayerId) (pm : PlayerManager) : Option Player :=
  (pm.realPlayers ++ pm.artificialPlayers).find? (fun p =>
    match playerIdFromPlayerProto p with
    | some protoId => protoId = pid
    | none => false)

/-- Whether a player proto's id matches `pid` (the predicate of
`get_player`/`get_mut_player`). -/
def protoIdMatches (pid : PlayerId) (p : Player) : Bool :=
  match playerIdFromPlayerProto p with
  | some protoId => protoId = pid
  | none => false

/-- Increment the score of the first player matching `pid` in a list,
reporting whether one was found (`get_mut_player` acts on the first match of
the chained rosters). -/
def bumpFirstScore (pid : PlayerId) : List Player → Bool × List Player
  | [] => (false, [])
  | p :: rest =>
    if protoIdMatches pid p then (true, { p with score := p.score + 1 } :: rest)
    else
      let (found, rest1) := bumpFirstScore pid rest
      (found, p :: rest1)

/-- `increment_player_score` (via `get_mut_player` over
`real_players.chain(artificial_players)`). -/
def incrementPlayerScore (pid : PlayerId) (pm : PlayerManager) : PlayerManager :=
  let (foundReal, real1) := bumpFirstScore pid pm.realPlayers
  if foundReal then { pm with realPlayers := real1 }
  else { pm with artificialPlayers := (bumpFirstScore pid pm.artificialPlayers).2 }

/-- `get_player_score`. -/
def getPlayerScore (pid : PlayerId) (pm : PlayerManager) : Option Int :=
  (pm.getPlayer pid).map (fun p => p.score)

/-- `get_real_player`: find by user name in `real_players`. -/
def getRealPlayer (userName : String) (pm : PlayerManager) : Option Player :=
  pm.realPlayers.find? (fun p =>
    match p.identifier with
    | some (.user u) => u.name = userName
    | _ => false)

/-- `get_owner`: the first real player's user, if any. -/
def getOwner (pm : PlayerManager) : Option User :=
  match pm.realPlayers.head? with
  | none => none
  | some p =>
    match p.identifier with
    | some (.user u) => some u
    | _ => none

/-- `is_owner`. -/
def isOwner (userName : String) (pm : PlayerManager) : Bool :=
  match pm.getOwner with
  | some owner => owner.name = userName
  | none => false

/-- `set_random_judge`: `thread_rng().next_u32() as usize % real_players.len()`;
the drawn 32-bit value is `rand`.  (Panics on division by zero if the roster
is empty; callers guarantee it is not.) -/
def setRandomJudge (rand : Nat) (pm : PlayerManager) : PlayerManager :=
  { pm with judgePlayerIndex := some (rand % pm.realPlayers.length) }

/-- `increment_judge`. -/
def incrementJudge (pm : PlayerManager) : PlayerManager :=
  { pm with
    judgePlayerIndex :=
      match pm.judgePlayerIndex with
      | some index =>
        if index + 1 < pm.realPlayers.length then some (index + 1) else some 0
      | none => none }

/-- `get_judge`: the user at the judge index of `real_players`. -/
def getJudge (pm : PlayerManager) : Option User :=
  match pm.judgePlayerIndex with
  | none => none
  | some index =>
    match pm.realPlayers.get? index with
    | none => none
    | some p =>
      match p.identifier with
      | some (.user u) => some u
      | _ => none

/-- `is_judge`. -/
def isJudge (userName : String) (pm : PlayerManager) : Bool :=
  match pm.getJudge with
  | some judge => judge.name = userName
  | none => false

/-- Sort key of `sort_player_list_by_join_time` (missing `join_time` maps to
the unix epoch). -/
def joinKey (p : Player) : Nat :=
  match p.joinTime with
  | some t => t
  | none => 0

/-- Stable insertion used to model Rust's stable `sort_by`. -/
def insertByJoinTime (p : Player) : List Player → List Player
  | [] => [p]
  | q :: rest =>
    if joinKey p ≤ joinKey q then p :: q :: rest
    else q :: insertByJoinTime p rest

/-- `sort_player_list_by_join_time` (stable sort by join time). -/
def sortPlayerListByJoinTime : List Player → List Player
  | [] => []
  | p :: rest => insertByJoinTime p (sortPlayerListByJoinTime rest)

/-- `clone_all_players_sorted_by_join_time`. -/
def cloneAllPlayersSortedByJoinTime (pm : PlayerManager) : List Player :=
  sortPlayerListByJoinTime (pm.realPlayers ++ pm.artificialPlayers)

/-- `clone_all_queued_players_sorted_by_join_time`. -/
def cloneAllQueuedPlayersSortedByJoinTime (pm : PlayerManager) : List Player :=
  sortPlayerListByJoinTime (pm.queuedRealPlayers ++ pm.queuedArtificialPlayers)

/-- `reset_player_scores`. -/
def resetPlayerScores (pm : PlayerManager) : PlayerManager :=
  { pm with
    realPlayers := pm.realPlayers.map (fun p => { p with score := 0 })
    artificialPlayers := pm.artificialPlayers.map (fun p => { p with score := 0 }) }

/-- `drain_queued_real_and_artificial_players`. -/
def drainQueuedRealAndArtificialPlayers (pm : PlayerManager) : PlayerManager :=
  { pm with
    realPlayers := pm.realPlayers ++ pm.queuedRealPlayers
    artificialPlayers := pm.artificialPlayers ++ pm.queuedArtificialPlayers
    queuedRealPlayers := []
    queuedArtificialPlayers := [] }

/-- `user_is_in_game`: real or queued-real member with this user name. -/
def userIsInGame (userName : String) (pm : PlayerManager) : Bool :=
  (pm.realPlayers ++ pm.queuedRealPlayers).any (fun p =>
    match p.identifier with
    | some (.user u) => u.name = userName
    | _ => false)

/-- `artificial_player_is_in_game`. -/
def artificialPlayerIsInGame (artificialPlayerId : String)
    (pm : PlayerManager) : Bool :=
  (pm.artificialPlayers ++ pm.queuedArtificialPlayers).any (fun p =>
    match p.identifier with
    | some (.artificialUser id _) => id = artificialPlayerId
    | _ => false)

/-- `get_user_names_for_all_real_players` (skips empty names). -/
def getUserNamesForAllRealPlayers (pm : PlayerManager) : List String :=
  pm.realPlayers.filterMap (fun p =>
    match p.identifier with
    | some (.user u) => if u.name.isEmpty then none else some u.name
    | _ => none)

/-- Whether a player proto is a real user with the given name (the negation
of the `retain` predicate of `remove_real_player_from_vec_by_name`). -/
def playerHasUserName (userName : String) (p : Player) : Bool :=
  match p.identifier with
  | some (.user u) => u.name = userName
  | _ => false

/-- `remove_real_player_from_vec_by_name` (`Vec::retain`). -/
def removeRealPlayerFromVecByName (userName : String)
    (players : List Player) : List Player :=
  players.filter (fun p => ¬ playerHasUserName userName p)

/-- `remove_artificial_player_from_vec_by_name` (`Vec::retain`). -/
def removeArtificialPlayerFromVecByName (artificialPlayerId : String)
    (players : List Player) : List Player :=
  players.filter (fun p =>
    match p.identifier with
    | some (.artificialUser id _) => id ≠ artificialPlayerId
    | _ => true)

/-- `add_player` (`now` is the `SystemTime::now()` join timestamp). -/
def addPlayer (identifier : Identifier) (now : Nat) (pm : PlayerManager) :
    PlayerManager :=
  let p : Player := { identifier := some identifier, joinTime := some now, score := 0 }
  match identifier with
  | .user _ => { pm with realPlayers := pm.realPlayers ++ [p] }
  | .artificialUser _ _ =>
    { pm with artificialPlayers := pm.artificialPlayers ++ [p] }

/-- `add_queued_player`. -/
def addQueuedPlayer (identifier : Identifier) (now : Nat) (pm : PlayerManager) :
    PlayerManager :=
  let p : Player := { identifier := some identifier, joinTime := some now, score := 0 }
  match identifier with
  | .user _ => { pm with queuedRealPlayers := pm.queuedRealPlayers ++ [p] }
  | .artificialUser _ _ =>
    { pm with queuedArtificialPlayers := pm.queuedArtificialPlayers ++ [p] }

/-- `remove_player`: remove by id from the active and queued lists; for a
real removal, drop or wrap the judge index as in the source. -/
def removePlayer (pid : PlayerId) (pm : PlayerManager) : PlayerManager :=
  match pid with
  | .realUser userName =>
    let real1 := removeRealPlayerFromVecByName userName pm.realPlayers
    let queued1 := removeRealPlayerFromVecByName userName pm.queuedRealPlayers
    let judge1 :=
      match pm.judgePlayerIndex with
      | some judgePlayerIndex =>
        if real1.isEmpty then none
        else if real1.length = judgePlayerIndex then some 0
        else some judgePlayerIndex
      | none => none
    { pm with
      realPlayers := real1
      queuedRealPlayers := queued1
      judgePlayerIndex := judge1 }
  | .artificialPlayer artificialPlayerId =>
    { pm with
      artificialPlayers :=
        removeArtificialPlayerFromVecByName artificialPlayerId pm.artificialPlayers
      queuedArtificialPlayers :=
        removeArtificialPlayerFromVecByName artificialPlayerId
          pm.queuedArtificialPlayers }

/-- `get_last_artificial_player`. -/
def getLastArtificialPlayer (pm : PlayerManager) : Option PlayerId :=
  if pm.queuedArtificialPlayers.isEmpty then
    match pm.artificialPlayers.getLast? with
    | none => none
    | some p => playerIdFromPlayerProto p
  else
    match pm.queuedArtificialPlayers.getLast? with
    | none => none
    | some p => playerIdFromPlayerProto p

end PlayerManager

/-! ## `game_service/src/game/black_card_deck.rs` -/

/-- `BlackCardDeck` (draw pile top at the back). -/
structure BlackCardDeck : Type where
  drawPile : List BlackCardInRound
  discardPile : List BlackCardInRound
  deriving DecidableEq, Repr

namespace BlackCardDeck

/-- `get_current_black_card`: the last element of the draw pile; the source
unwraps (`none` here corresponds to its panic, unreachable for constructed
decks). -/
def getCurrentBlackCard (d : BlackCardDeck) : Option BlackCardInRound :=
  d.drawPile.getLast?

/-- `shuffle_and_reset` with the drawn permutation `π`. -/
def shuffleAndReset (π : List BlackCardInRound → List BlackCardInRound)
    (d : BlackCardDeck) : BlackCardDeck :=
  { drawPile := π (d.drawPile ++ d.discardPile), discardPile := [] }

/-- `next_card`: move the top of draw to discard, reshuffling when the draw
pile empties; `none` models the `pop().unwrap()` panic on an empty deck. -/
def nextCard (π : List BlackCardInRound → List BlackCardInRound)
    (d : BlackCardDeck) : Option BlackCardDeck :=
  match d.drawPile.getLast? with
  | none => none
  | some c =>
    let d1 : BlackCardDeck :=
      { drawPile := d.drawPile.dropLast
        discardPile := d.discardPile ++ [c] }
    if d1.drawPile.isEmpty then some (d1.shuffleAndReset π) else some d1

end BlackCardDeck

/-! ## `game_service/src/game/chat_message_handler.rs` -/

/-- `ChatMessageHandler` (bounded ring buffer). -/
structure ChatMessageHandler : Type where
  messages : List ChatMessage
  lastMessageIndex : Option Nat
  maxLen : Nat
  deriving DecidableEq, Repr

namespace ChatMessageHandler

/-- `ChatMessageHandler::new`. -/
def new (maxLen : Nat) : ChatMessageHandler :=
  { messages := [], lastMessageIndex := none, maxLen := maxLen }

/-- `add_new_message`. -/
def addNewMessage (message : ChatMessage) (h : ChatMessageHandler) :
    ChatMessageHandler :=
  if h.maxLen = 0 then h
  else
    let newIndex :=
      match h.lastMessageIndex with
      | some i => if i + 1 = h.maxLen then 0 else i + 1
      | none => 0
    if h.messages.length < h.maxLen then
      { h with messages := h.messages ++ [message], lastMessageIndex := some newIndex }
    else
      { h with
        messages := h.messages.set newIndex message
        lastMessageIndex := some newIndex }

/-- `clone_message_list` (`rotate_left(last_message_index + 1)`). -/
def cloneMessageList (h : ChatMessageHandler) : List ChatMessage :=
  match h.lastMessageIndex with
  | some i => h.messages.rotate (i + 1)
  | none => []

end ChatMessageHandler

/-! ## `game_service/src/game/text_query_handler.rs` -/

/-- `TextQueryHandler`. -/
structure TextQueryHandler : Type where
  texts : List String
  deriving DecidableEq, Repr

/-- Rust `str::contains` (substring containment). -/
def strContains (hay pat : String) : Bool :=
  decide (List.IsInfix pat.toList hay.toList)

namespace TextQueryHandler

/-- `query(filter, page_size, skip)`: matches are texts containing the
filter; skip `skip` matches, take `page_size + 1`, report a next page when
the extra element exists and drop it. -/
def query (filter : String) (pageSize skip : Nat) (h : TextQueryHandler) :
    List String × Bool :=
  let texts :=
    ((h.texts.filter (fun t => strContains t filter)).drop skip).take (pageSize + 1)
  let hasNextPage := texts.length = pageSize + 1
  if hasNextPage then (texts.dropLast, hasNextPage) else (texts, hasNextPage)

/-- `total_size`. -/
def totalSize (h : TextQueryHandler) : Nat :=
  h.texts.length

end TextQueryHandler

/-! ## Round-nonce strings and the seeded display shuffle

`game.rs` builds `format!("{}{}{}", game_id, past_rounds.len(), judge_debug)`
and hashes it with SHA-256 to seed a `ChaChaRng` driving a Fisher-Yates
shuffle.  The decimal formatting of `usize` and the `{:?}` form of the judge
`User` are embedded concretely below.  The SHA-256 digest and the
ChaCha-driven permutation are both fixed deterministic functions of that
input string, so they are modelled by a concrete deterministic
seed-dependent permutation `seededShuffle`: every property proved here
(determinism within a round, and which state fields feed the seed) depends
only on that, not on the particular permutation. -/

/-- Fuel-driven most-significant-first decimal digits of a positive `Nat`
(fuel at least the number itself suffices). -/
def natDecCharsAux : Nat → Nat → List Char
  | 0, _ => []
  | fuel + 1, n =>
    if n = 0 then []
    else natDecCharsAux fuel (n / 10) ++ [Nat.digitChar (n % 10)]

/-- Decimal representation of a `usize`, as produced by `format!("{}", n)`. -/
def natDecChars (n : Nat) : List Char :=
  if n = 0 then [Char.ofNat 48] else natDecCharsAux n n

/-- Decimal string of a `usize`. -/
def natDec (n : Nat) : String :=
  ⟨natDecChars n⟩

/-- One character of the derived `Debug` escape for the quoted string fields
(quotes and backslashes are escaped). -/
def escChar (c : Char) : List Char :=
  if c = Char.ofNat 34 then [Char.ofNat 92, Char.ofNat 34]
  else if c = Char.ofNat 92 then [Char.ofNat 92, Char.ofNat 92]
  else [c]

/-- Escaped character list of a quoted `Debug` string field. -/
def escChars (l : List Char) : List Char :=
  (l.map escChar).flatten

/-- `format!("{:?}", user)` for the judge `User` reference: the derived
`Debug` form over the user's fields (the two timestamp fields, absent from
the embedded `User`, contribute a fixed spelling and are dropped). -/
def debugUser (u : User) : List Char :=
  "User \x7b name: \"".toList ++ escChars u.name.toList
    ++ "\", display_name: \"".toList ++ escChars u.displayName.toList
    ++ "\" \x7d".toList

/-- A simple deterministic hash of the seed string, standing in for the
SHA-256 + ChaCha pipeline (see the section comment). -/
def seedNat (s : List Char) : Nat :=
  s.foldl (fun a c => a * 256 + c.toNat) 0

/-- The deterministic seed-dependent permutation standing in for the
ChaCha-driven shuffle: a rotation selected by the seed. -/
def seededShuffle {α : Type} (seed : List Char) (l : List α) : List α :=
  l.rotate (seedNat seed % (l.length + 1))

/-- Proof-auxiliary decimal decoder (not part of the source): folds a digit
string back into the `Nat` it denotes, inverting `natDecChars`. -/
def decCharsVal (l : List Char) : Nat :=
  l.foldl (fun a c => a * 10 + (c.toNat - 48)) 0

/-- Proof-auxiliary escape decoder (not part of the source): parses a
`Debug`-escaped character run up to its closing unescaped quote, inverting
`escChars`; returns the decoded content and the remainder after the
quote. -/
def unescTo : List Char → Option (List Char × List Char)
  | [] => none
  | c :: rest =>
    if c = Char.ofNat 92 then
      match rest with
      | [] => none
      | d :: rest2 =>
        match unescTo rest2 with
        | some (content, r) => some (d :: content, r)
        | none => none
    else if c = Char.ofNat 34 then some ([], rest)
    else
      match unescTo rest with
      | some (content, r) => some (c :: content, r)
      | none => none

/-- `game.rs`: `get_text_from_playable_white_card` (a blank card shows its
`open_text`). -/
def getTextFromPlayableWhiteCard (c : PlayableWhiteCard) : String :=
  match c.card with
  | some (.customWhiteCard _ text) => text
  | some (.blankWhiteCard _ openText) => openText
  | some (.defaultWhiteCard _ text) => text
  | none => ""

/-! ## `game_service/src/game/game.rs` -/

/-- `WhiteCardsPlayed` proto: one played-set entry of the view. -/
structure WhiteCardsPlayed : Type where
  player : Option Player
  cardTexts : List String
  deriving DecidableEq, Repr

/-- `PastRound` proto. -/
structure PastRound : Type where
  blackCard : Option BlackCardInRound
  whitePlayed : List WhiteCardsPlayed
  judge : Option User
  winner : Option Player
  deriving DecidableEq, Repr

/-- `MINIMUM_PLAYERS_REQUIRED_TO_PLAY` (shared/src/constants.rs). -/
def minimumPlayersRequiredToPlay : Nat := 3

/-- The `Game` struct. -/
structure Game : Type where
  gameId : String
  config : ValidatedGameConfig
  createTime : Nat
  lastActivityTime : Nat
  stage : Stage
  chatMessages : ChatMessageHandler
  pastRounds : List PastRound
  playerManager : PlayerManager
  bannedUsers : List User
  winner : Option Player
  blackCardDeck : BlackCardDeck
  gameplayManager : WhiteCardGameplayManager
  whiteCardTextQueryHandler : TextQueryHandler
  deriving DecidableEq, Repr

/-- `GameView` proto (timestamps as `Option Nat`). -/
structure GameView : Type where
  gameId : String
  config : Option GameConfig
  stage : Stage
  hand : List PlayableWhiteCard
  players : List Player
  queuedPlayers : List Player
  bannedUsers : List User
  judge : Option User
  owner : Option User
  whitePlayed : List WhiteCardsPlayed
  currentBlackCard : Option BlackCardInRound
  winner : Option Player
  chatMessages : List ChatMessage
  pastRounds : List PastRound
  createTime : Option Nat
  lastActivityTime : Option Nat
  deriving DecidableEq, Repr

namespace Game

/-- `update_last_activity_time` (`now` is the sampled `SystemTime::now()`). -/
def updateLastActivityTime (now : Nat) (g : Game) : Game :=
  { g with lastActivityTime := now }

/-- `is_running`. -/
def isRunning (g : Game) : Bool :=
  g.stage ≠ .notRunning

/-- `round_is_in_progress`. -/
def roundIsInProgress (g : Game) : Bool :=
  g.isRunning && g.stage ≠ .roundEndPhase

/-- `is_full` (active plus queued real players reach `max_players`). -/
def isFull (g : Game) : Bool :=
  g.playerManager.realPlayers.length + g.playerManager.queuedRealPlayers.length
    = g.config.maxPlayers

/-- `has_enough_players_to_play`: at least 2 real and at least
`MINIMUM_PLAYERS_REQUIRED_TO_PLAY` total. -/
def hasEnoughPlayersToPlay (g : Game) : Bool :=
  2 ≤ g.playerManager.realPlayers.length &&
    minimumPlayersRequiredToPlay ≤
      g.playerManager.realPlayers.length + g.playerManager.artificialPlayers.length

/-- `user_is_banned`. -/
def userIsBanned (userName : String) (g : Game) : Bool :=
  g.bannedUsers.any (fun u => u.name = userName)

/-- `contains_player` (`player_manager.get_player(..).is_some()`; note this
consults only the active rosters, not the queues). -/
def containsPlayer (pid : PlayerId) (g : Game) : Bool :=
  (g.playerManager.getPlayer pid).isSome

/-- `all_players_have_played_this_round`: every real player that is not the
judge has a staged set (entries without a user identifier are skipped). -/
def allPlayersHavePlayedThisRound (g : Game) : Bool :=
  g.playerManager.realPlayers.all (fun p =>
    match p.identifier with
    | some (.user u) =>
      g.playerManager.isJudge u.name ||
        g.gameplayManager.playerHasPlayedThisRound (.realUser u.name)
    | _ => true)

/-- `add_queued_players_to_game`: give each queued player a hand
(`from_player_proto(..).unwrap()`: `none` models the panic on an
identifier-less queued entry), then drain the queues. -/
def addQueuedPlayersToGame (g : Game) : Option Game :=
  let queued :=
    g.playerManager.queuedRealPlayers ++ g.playerManager.queuedArtificialPlayers
  match queued.mapM playerIdFromPlayerProto with
  | none => none
  | some pids =>
    some { g with
      gameplayManager := pids.foldl (fun m pid => m.addPlayer pid) g.gameplayManager
      playerManager := g.playerManager.drainQueuedRealAndArtificialPlayers }

/-- `force_stop`: no-op when not running; otherwise discard all hands,
promote the queues, set `NotRunning`, touch the activity time. -/
def forceStop (now : Nat) (g : Game) : Option Game :=
  if ¬ g.isRunning then some g
  else
    match addQueuedPlayersToGame
        { g with gameplayManager := g.gameplayManager.discardPlayerHands } with
    | none => none
    | some g1 => some ({ g1 with stage := .notRunning }.updateLastActivityTime now)

/-- `stop_if_not_enough_players`. -/
def stopIfNotEnoughPlayers (now : Nat) (g : Game) : Option Game :=
  if ¬ g.hasEnoughPlayersToPlay then g.forceStop now else some g

/-- `remove_player`: a judge leaving mid-round first returns staged cards to
hands and moves the game to `RoundEndPhase`; then the player is removed from
both managers and the game stops if too few players remain. -/
def removePlayer (now : Nat) (pid : PlayerId) (g : Game) : Option Game :=
  let g1 :=
    match pid with
    | .realUser userName =>
      if g.isRunning && g.playerManager.isJudge userName
          && g.stage ≠ .roundEndPhase then
        { g with
          gameplayManager := g.gameplayManager.returnPlayedCardsToHands
          stage := .roundEndPhase }
      else g
    | .artificialPlayer _ => g
  let g2 := { g1 with
    playerManager := g1.playerManager.removePlayer pid
    gameplayManager := g1.gameplayManager.removePlayer pid }
  g2.stopIfNotEnoughPlayers now

/-- `leave`. -/
def leave (now : Nat) (userName : String) (g : Game) : RunResult Unit × Game :=
  if ¬ g.playerManager.userIsInGame userName then
    (.err (.invalidArgument "Cannot leave - you are not in this game."), g)
  else
    match g.removePlayer now (.realUser userName) with
    | none => (.panicked, g)
    | some g1 => (.ok (), g1)

/-- `ban_user`: owner-gated; a currently active member is first removed via
`leave`; the user is then appended to `banned_users`. -/
def banUser (now : Nat) (userName : String) (trollUser : User) (g : Game) :
    RunResult Unit × Game :=
  if ¬ g.playerManager.isOwner userName then
    (.err (.invalidArgument "Must be game owner to ban someone."), g)
  else if g.playerManager.isOwner trollUser.name then
    (.err (.invalidArgument "Cannot ban yourself from your own game."), g)
  else if g.userIsBanned trollUser.name then
    (.err (.invalidArgument "User is already banned from this game."), g)
  else
    let afterLeave : RunResult Unit × Game :=
      if g.containsPlayer (.realUser trollUser.name) then
        g.leave now trollUser.name
      else (.ok (), g)
    match afterLeave with
    | (.ok _, g1) =>
      (.ok (),
        ({ g1 with bannedUsers := g1.bannedUsers ++ [trollUser] }).updateLastActivityTime
          now)
    | other => other

/-- Remove the first banned user with the given name, if any
(the indexed loop of `unban_user`). -/
def removeFirstBannedByName (userName : String) :
    List User → Option (List User)
  | [] => none
  | u :: rest =>
    if u.name = userName then some rest
    else (removeFirstBannedByName userName rest).map (fun r => u :: r)

/-- `unban_user`. -/
def unbanUser (now : Nat) (userName trollUserName : String) (g : Game) :
    RunResult Unit × Game :=
  if ¬ g.playerManager.isOwner userName then
    (.err (.invalidArgument "Must be game owner to unban someone."), g)
  else
    match removeFirstBannedByName trollUserName g.bannedUsers with
    | some banned1 =>
      (.ok (), ({ g with bannedUsers := banned1 }).updateLastActivityTime now)
    | none =>
      (.err (.invalidArgument "User is not banned from this game."), g)

/-- `start`: owner-gated, only from `NotRunning` with enough players; sets a
random judge, clears past rounds, shuffles and resets the black deck, resets
scores, discards staged plays and refills hands (a refill shortage is the
`unwrap` panic), auto-plays bots, and enters `PlayPhase`. -/
def start (πb : List BlackCardInRound → List BlackCardInRound)
    (πw : List PlayableWhiteCard → List PlayableWhiteCard)
    (rand now : Nat) (userName : String) (g : Game) : RunResult Unit × Game :=
  if ¬ g.playerManager.isOwner userName then
    (.err (.invalidArgument "Must be game owner to start game."), g)
  else if g.isRunning then
    (.err (.invalidArgument "Game is already running."), g)
  else if ¬ g.hasEnoughPlayersToPlay then
    (.err (.invalidArgument "Need at least 3 players to start."), g)
  else
    let g1 := { g with
      playerManager := (g.playerManager.setRandomJudge rand).resetPlayerScores
      pastRounds := []
      blackCardDeck := g.blackCardDeck.shuffleAndReset πb }
    match g1.gameplayManager.discardPlayedCardsAndDrawToFull πw with
    | none => (.panicked, g1)
    | some m1 =>
      match g1.blackCardDeck.getCurrentBlackCard with
      | none => (.panicked, { g1 with gameplayManager := m1 })
      | some currentBlackCard =>
        let g2 := { g1 with
          gameplayManager := m1.playForArtificialPlayers currentBlackCard
          stage := .playPhase }
        (.ok (), g2.updateLastActivityTime now)

/-- `play_cards`: stage-, judge- and replay-gated; delegates to
`play_cards_for_player`; entering `JudgePhase` exactly when every non-judge
real player has now played. -/
def playCards (now : Nat) (userName : String)
    (cards : List PlayableWhiteCard) (g : Game) : RunResult Unit × Game :=
  if g.stage ≠ .playPhase then
    (.err (.invalidArgument "Can only play cards during play phase."), g)
  else if g.playerManager.isJudge userName then
    (.err (.invalidArgument "Cannot play cards as the judge."), g)
  else if g.gameplayManager.playerHasPlayedThisRound (.realUser userName) then
    (.err (.invalidArgument "User has already played this round."), g)
  else
    match g.blackCardDeck.getCurrentBlackCard with
    | none => (.panicked, g)
    | some currentBlackCard =>
      match g.gameplayManager.playCardsForPlayer (.realUser userName) cards
          currentBlackCard g.config with
      | (.error e, m1) => (.err e, { g with gameplayManager := m1 })
      | (.ok _, m1) =>
        let g1 := { g with gameplayManager := m1 }
        let g2 :=
          if g1.allPlayersHavePlayedThisRound then
            { g1 with stage := .judgePhase }
          else g1
        (.ok (), g2.updateLastActivityTime now)

/-- `get_round_nonce_digest`, up to the final SHA-256 application: the exact
input string `format!("{}{}{}", game_id, past_rounds.len(), judge_debug)`
that the digest is computed over. -/
def roundNonceInput (g : Game) : List Char :=
  let judgeChars :=
    match g.playerManager.getJudge with
    | some judge => debugUser judge
    | none => []
  g.gameId.toList ++ natDecChars g.pastRounds.length ++ judgeChars

/-- `get_pseudorandom_ordered_white_cards_played_list`: one entry per staged
set (player resolved through the roster, texts extracted), then the
round-nonce-seeded deterministic shuffle. -/
def getPseudorandomOrderedWhiteCardsPlayedList (g : Game) :
    List WhiteCardsPlayed :=
  let whitePlayedList :=
    g.gameplayManager.playedCards.map (fun p =>
      { player := g.playerManager.getPlayer p.1
        cardTexts := p.2.map getTextFromPlayableWhiteCard
        : WhiteCardsPlayed })
  seededShuffle (roundNonceInput g) whitePlayedList

/-- `get_user_view`: the per-user projection; the hand defaults to empty for
users without one, and the played-set hides texts during `PlayPhase` and
submitter identities during `JudgePhase`.  The only non-`Ok` outcome is the
`get_current_black_card` unwrap panic on a running game with an empty black
draw pile (unreachable for constructed decks). -/
def getUserView (userName : String) (g : Game) : RunResult GameView :=
  if g.isRunning && g.blackCardDeck.drawPile.isEmpty then .panicked
  else .ok
    { gameId := g.gameId
      config := some g.config.rawConfig
      stage := g.stage
      hand := (g.gameplayManager.getHandBelongingToPlayer
        (.realUser userName)).getD []
      players := g.playerManager.cloneAllPlayersSortedByJoinTime
      queuedPlayers := g.playerManager.cloneAllQueuedPlayersSortedByJoinTime
      bannedUsers := g.bannedUsers
      judge := g.playerManager.getJudge
      owner := g.playerManager.getOwner
      whitePlayed :=
        let playedCards := g.getPseudorandomOrderedWhiteCardsPlayedList
        match g.stage with
        | .playPhase => playedCards.map (fun e => { e with cardTexts := [] })
        | .judgePhase => playedCards.map (fun e => { e with player := none })
        | _ => playedCards
      currentBlackCard :=
        if g.isRunning then g.blackCardDeck.getCurrentBlackCard else none
      winner := g.winner
      chatMessages := g.chatMessages.cloneMessageList
      pastRounds := g.pastRounds
      createTime := some g.createTime
      lastActivityTime := some g.lastActivityTime }

/-- `search_white_card_texts`. -/
def searchWhiteCardTexts (pageSize skip : Nat) (filter : String) (g : Game) :
    List String × Bool × Nat :=
  let (texts, hasNextPage) :=
    g.whiteCardTextQueryHandler.query filter pageSize skip
  (texts, hasNextPage, g.whiteCardTextQueryHandler.totalSize)

end Game

/-! ## `game_service/src/game/game_indexer.rs` -/

/-- `GameIndexer::insert_game`: scan from the back of the list for the last
game whose `create_time` is strictly earlier than the new game's
(`duration_since(..).is_err()` holds exactly for strictly earlier times) and
insert just after it; if none is earlier, insert at the front.  Front
recursion equivalent: keep the head as long as some remaining element is
strictly earlier than the new game. -/
def insertGame (game : Game) : List Game → List Game
  | [] => [game]
  | g :: rest =>
    if (g :: rest).any (fun y => y.createTime < game.createTime) then
      g :: insertGame game rest
    else game :: g :: rest

/-- `GameIndexer::get_game_by_game_id` (first match of a linear scan). -/
def getGameByGameId (gameId : String) (games : List Game) : Option Game :=
  games.find? (fun g => g.gameId = gameId)

/-! ## `game_service/src/service/game_service_impl.rs`:
`list_white_card_texts` -/

/-- Rust `str::parse::<usize>()`: optional leading plus sign, at least one
decimal digit, value below `2^64` (overflow is an `Err`). -/
def parseUsize (s : String) : Option Nat :=
  let cs :=
    match s.toList with
    | c :: rest => if c = '+' then rest else c :: rest
    | [] => []
  if cs.isEmpty then none
  else if cs.all Char.isDigit then
    let v := cs.foldl (fun a c => a * 10 + (c.toNat - 48)) 0
    if v < 2 ^ 64 then some v else none
  else none

/-- `ListWhiteCardTextsResponse` proto. -/
structure ListWhiteCardTextsResponse : Type where
  cardTexts : List String
  nextPageToken : String
  totalSize : Int
  deriving DecidableEq, Repr

/-- `list_white_card_texts`: resolve the game, then
`page_token.parse::<usize>().unwrap()` — `RunResult.panicked` models the
unwrap panic on a non-decimal page token.  `page_size` is an `i32` cast
`as usize`. -/
def listWhiteCardTexts (games : List Game)
    (gameId filter pageToken : String) (pageSize : Int) :
    RunResult ListWhiteCardTextsResponse :=
  match getGameByGameId gameId games with
  | none => .err (.notFound "Game does not exist.")
  | some game =>
    match parseUsize pageToken with
    | none => .panicked
    | some skip =>
      let pageSizeU := usizeOfInt pageSize
      let (cardTexts, hasNextPage, totalSize) :=
        game.searchWhiteCardTexts pageSizeU skip filter
      .ok
        { cardTexts := cardTexts
          nextPageToken := if hasNextPage then natDec (skip + pageSizeU) else ""
          totalSize := (totalSize : Int) }

/-! ## Concrete sample states

Small game states assembled from the constructors above, used to evaluate
the operations on concrete inputs (witnesses and counterexamples). -/

/-- A user with equal name and display name. -/
def mkUser (n : String) : User :=
  { name := n, displayName := n }

/-- A real player joined at time `t` with score 0. -/
def mkRealPlayer (n : String) (t : Nat) : Player :=
  { identifier := some (.user (mkUser n)), joinTime := some t, score := 0 }

/-- A custom white card named `n`. -/
def mkWhite (n : String) : PlayableWhiteCard :=
  { card := some (.customWhiteCard n ("text of " ++ n)) }

/-- A blank white card. -/
def mkBlank (id openText : String) : PlayableWhiteCard :=
  { card := some (.blankWhiteCard id openText) }

/-- A single-answer custom black card in round. -/
def blackOne : BlackCardInRound :=
  { card := some (.customBlackCard "cb1" "black text" 1) }

/-- An endless-mode test config: hand size 3, blanks disabled. -/
def cfgBasic : ValidatedGameConfig :=
  { displayName := "Test Game"
    maxPlayers := 10
    endCondition := .endlessMode
    handSize := 3
    customCardpackNames := ["pack"]
    defaultCardpackNames := []
    blankWhiteCardConfig := { behavior := 1, blankWhiteCardsAdded := none } }

/-- The same config with open-text blank white cards enabled. -/
def cfgOpenText : ValidatedGameConfig :=
  { cfgBasic with
    blankWhiteCardConfig :=
      { behavior := 2, blankWhiteCardsAdded := some (.cardCount 5) } }

/-- Three real players `users/0`, `users/1`, `users/2` (owner first), no
judge. -/
def pmThree : PlayerManager :=
  { realPlayers :=
      [mkRealPlayer "users/0" 1, mkRealPlayer "users/1" 2,
        mkRealPlayer "users/2" 3]
    artificialPlayers := []
    queuedRealPlayers := []
    queuedArtificialPlayers := []
    judgePlayerIndex := none }

/-- Empty hands for the three players of `pmThree`. -/
def handsEmptyThree : List (PlayerId × List PlayableWhiteCard) :=
  [(.realUser "users/0", []), (.realUser "users/1", []),
    (.realUser "users/2", [])]

/-- A stopped three-player game whose white deck holds only four cards:
fewer than `hand_size × players = 9`. -/
def gShortDeck : Game :=
  { gameId := "g1"
    config := cfgBasic
    createTime := 0
    lastActivityTime := 0
    stage := .notRunning
    chatMessages := ChatMessageHandler.new 100
    pastRounds := []
    playerManager := pmThree
    bannedUsers := []
    winner := none
    blackCardDeck := { drawPile := [blackOne], discardPile := [] }
    gameplayManager :=
      { handsAndPlayedCards := handsEmptyThree
        playedCards := []
        whiteCardDeck :=
          { drawPile := [mkWhite "w0", mkWhite "w1", mkWhite "w2", mkWhite "w3"]
            discardPile := [] }
        handSize := 3 }
    whiteCardTextQueryHandler := { texts := ["apple", "banana", "cherry"] } }

/-- A stopped three-player game with ten cards in the white draw pile and
one card sitting in the white discard pile. -/
def gRichDeck : Game :=
  { gShortDeck with
    gameplayManager :=
      { gShortDeck.gameplayManager with
        whiteCardDeck :=
          { drawPile :=
              [mkWhite "w0", mkWhite "w1", mkWhite "w2", mkWhite "w3",
                mkWhite "w4", mkWhite "w5", mkWhite "w6", mkWhite "w7",
                mkWhite "w8", mkWhite "w9"]
            discardPile := [mkWhite "leftover"] } } }

/-- A running three-player game in `PlayPhase`: judge `users/0`, each player
holding three cards, nothing staged yet. -/
def gPlayPhase : Game :=
  { gShortDeck with
    stage := .playPhase
    playerManager := { pmThree with judgePlayerIndex := some 0 }
    gameplayManager :=
      { handsAndPlayedCards :=
          [(.realUser "users/0", [mkWhite "h00", mkWhite "h01", mkWhite "h02"]),
            (.realUser "users/1", [mkWhite "h10", mkWhite "h11", mkWhite "h12"]),
            (.realUser "users/2", [mkWhite "h20", mkWhite "h21", mkWhite "h22"])]
        playedCards := []
        whiteCardDeck := { drawPile := [mkWhite "w0"], discardPile := [] }
        handSize := 3 } }

/-- `gPlayPhase` with a real player `users/9` queued (joined mid-round). -/
def gQueuedJoiner : Game :=
  { gPlayPhase with
    playerManager :=
      { gPlayPhase.playerManager with
        queuedRealPlayers := [mkRealPlayer "users/9" 9] } }

/-- A minimal empty game used by the indexer theorems (only `game_id` and
`create_time` matter to `insert_game`). -/
def mkTinyGame (id : String) (t : Nat) : Game :=
  { gameId := id
    config := cfgBasic
    createTime := t
    lastActivityTime := t
    stage := .notRunning
    chatMessages := ChatMessageHandler.new 100
    pastRounds := []
    playerManager :=
      { realPlayers := []
        artificialPlayers := []
        queuedRealPlayers := []
        queuedArtificialPlayers := []
        judgePlayerIndex := none }
    bannedUsers := []
    winner := none
    blackCardDeck := { drawPile := [blackOne], discardPile := [] }
    gameplayManager :=
      { handsAndPlayedCards := []
        playedCards := []
        whiteCardDeck := { drawPile := [], discardPile := [] }
        handSize := 3 }
    whiteCardTextQueryHandler := { texts := [] } }

/-- A round already played, for states with non-empty history. -/
def pastRoundSample : PastRound :=
  { blackCard := some blackOne
    whitePlayed := []
    judge := some (mkUser "users/0")
    winner := none }

/-- Gameplay manager holding one blank card in `users/1`'s hand (hand blanks
always carry an empty `open_text`: they are created empty and sanitized on
every discard). -/
def mgrWithBlank : WhiteCardGameplayManager :=
  { handsAndPlayedCards := [(.realUser "users/1", [mkBlank "b1" ""])]
    playedCards := []
    whiteCardDeck := { drawPile := [], discardPile := [] }
    handSize := 3 }

/-- Player manager for the judge-identity counterexample: players
`users/a`, `users/b`, `users/c` with the judge at index 1 (`users/b`). -/
def pmJudgeMid : PlayerManager :=
  { realPlayers :=
      [mkRealPlayer "users/a" 1, mkRealPlayer "users/b" 2,
        mkRealPlayer "users/c" 3]
    artificialPlayers := []
    queuedRealPlayers := []
    queuedArtificialPlayers := []
    judgePlayerIndex := some 1 }

/-! # Theorems -/

open WhiteCardGameplayManager

/-! ## Deck arithmetic lemmas -/

theorem shuffleAndReset_size
    (π : List PlayableWhiteCard → List PlayableWhiteCard)
    (hπ : ∀ l, (π l).length = l.length) (d : WhiteCardDeck) :
    (d.shuffleAndReset π).size = d.size := by
  simp [WhiteCardDeck.shuffleAndReset, WhiteCardDeck.size, hπ]

theorem drawOne_none_iff
    (π : List PlayableWhiteCard → List PlayableWhiteCard)
    (hπ : ∀ l, (π l).length = l.length) (d : WhiteCardDeck) :
    d.drawOne π = none ↔ d.size = 0 := by
  obtain ⟨dp, dc⟩ := d
  cases dp with
  | nil =>
    simp only [WhiteCardDeck.drawOne, WhiteCardDeck.shuffleAndReset,
      WhiteCardDeck.size, List.isEmpty_nil, if_true, List.nil_append,
      List.length_nil, Nat.zero_add]
    cases hl : (π dc).getLast? with
    | none =>
      have h0 : π dc = [] := List.getLast?_eq_none_iff.mp hl
      have hlen := congrArg List.length h0
      rw [hπ] at hlen
      simp only [List.length_nil] at hlen
      simp [hlen]
    | some c =>
      have hne : π dc ≠ [] := by
        intro h0
        rw [h0] at hl
        cases hl
      have hlen : dc.length ≠ 0 := by
        intro h0
        exact hne (List.length_eq_zero.mp ((hπ dc).trans h0))
      simp [hlen]
  | cons x xs =>
    simp only [WhiteCardDeck.drawOne, WhiteCardDeck.size, List.isEmpty_cons,
      if_false, Bool.false_eq_true, List.length_cons]
    cases hl : (x :: xs).getLast? with
    | none =>
      have := List.getLast?_eq_none_iff.mp hl
      cases this
    | some c =>
      simp

theorem drawOne_some_size
    (π : List PlayableWhiteCard → List PlayableWhiteCard)
    (hπ : ∀ l, (π l).length = l.length) (d : WhiteCardDeck)
    (c : PlayableWhiteCard) (d1 : WhiteCardDeck)
    (h : d.drawOne π = some (c, d1)) : d1.size + 1 = d.size := by
  obtain ⟨dp, dc⟩ := d
  cases dp with
  | nil =>
    simp only [WhiteCardDeck.drawOne, WhiteCardDeck.shuffleAndReset,
      List.isEmpty_nil, if_true, List.nil_append] at h
    cases hl : (π dc).getLast? with
    | none =>
      rw [hl] at h
      cases h
    | some c2 =>
      rw [hl] at h
      have hne : π dc ≠ [] := by
        intro h0
        rw [h0] at hl
        cases hl
      have hpos : 0 < (π dc).length := List.length_pos.mpr hne
      cases h
      simp only [WhiteCardDeck.size, List.length_dropLast, List.length_nil,
        Nat.zero_add, hπ] at *
      omega
  | cons x xs =>
    simp only [WhiteCardDeck.drawOne, List.isEmpty_cons, if_false,
      Bool.false_eq_true] at h
    cases hl : (x :: xs).getLast? with
    | none =>
      have := List.getLast?_eq_none_iff.mp hl
      cases this
    | some c2 =>
      rw [hl] at h
      cases h
      simp only [WhiteCardDeck.size, List.length_dropLast, List.length_cons]
      omega

theorem drawManyGo_spec
    (π : List PlayableWhiteCard → List PlayableWhiteCard)
    (hπ : ∀ l, (π l).length = l.length) :
    ∀ (n : Nat) (d : WhiteCardDeck), n ≤ d.size →
      ∃ cs d1, d.drawManyGo π n = some (cs, d1) ∧ cs.length = n ∧
        d1.size + n = d.size := by
  intro n
  induction n with
  | zero =>
    intro d _
    exact ⟨[], d, rfl, rfl, rfl⟩
  | succ k ih =>
    intro d hle
    have hpos : 0 < d.size := by omega
    cases hone : d.drawOne π with
    | none =>
      have := (drawOne_none_iff π hπ d).mp hone
      omega
    | some cd =>
      obtain ⟨c, d2⟩ := cd
      have hsz := drawOne_some_size π hπ d c d2 hone
      obtain ⟨cs, d3, hgo, hlen, hsz2⟩ := ih d2 (by omega)
      refine ⟨c :: cs, d3, ?_, by simp [hlen], by omega⟩
      unfold WhiteCardDeck.drawManyGo
      rw [hone]
      simp [hgo]

theorem drawMany_spec
    (π : List PlayableWhiteCard → List PlayableWhiteCard)
    (hπ : ∀ l, (π l).length = l.length) (n : Nat) (d : WhiteCardDeck)
    (h : n ≤ d.size) :
    ∃ cs d1, d.drawMany π n = some (cs, d1) ∧ cs.length = n ∧
      d1.size + n = d.size := by
  obtain ⟨cs, d1, hgo, hlen, hsz⟩ := drawManyGo_spec π hπ n d h
  refine ⟨cs, d1, ?_, hlen, hsz⟩
  unfold WhiteCardDeck.drawMany
  have : ¬ (d.drawPile.length + d.discardPile.length < n) := by
    unfold WhiteCardDeck.size at h
    omega
  rw [if_neg this, hgo]

theorem drawMany_none_iff
    (π : List PlayableWhiteCard → List PlayableWhiteCard)
    (hπ : ∀ l, (π l).length = l.length) (n : Nat) (d : WhiteCardDeck) :
    d.drawMany π n = none ↔ d.size < n := by
  constructor
  · intro h
    by_contra hlt
    obtain ⟨cs, d1, hsome, _, _⟩ := drawMany_spec π hπ n d (by omega)
    rw [h] at hsome
    cases hsome
  · intro h
    unfold WhiteCardDeck.drawMany
    rw [if_pos]
    unfold WhiteCardDeck.size at h
    omega

theorem drawManyGo_some_size
    (π : List PlayableWhiteCard → List PlayableWhiteCard)
    (hπ : ∀ l, (π l).length = l.length) :
    ∀ (n : Nat) (d : WhiteCardDeck) (cs : List PlayableWhiteCard)
      (d1 : WhiteCardDeck), d.drawManyGo π n = some (cs, d1) →
      d1.size + n = d.size := by
  intro n
  induction n with
  | zero =>
    intro d cs d1 h
    unfold WhiteCardDeck.drawManyGo at h
    cases h
    rfl
  | succ k ih =>
    intro d cs d1 h
    unfold WhiteCardDeck.drawManyGo at h
    cases hone : d.drawOne π with
    | none => rw [hone] at h; cases h
    | some cd =>
      obtain ⟨c, d2⟩ := cd
      rw [hone] at h
      have hsz := drawOne_some_size π hπ d c d2 hone
      cases hgo : d2.drawManyGo π k with
      | none => simp [hgo] at h
      | some r =>
        obtain ⟨cs2, d3⟩ := r
        simp only [hgo] at h
        have h2 := ih d2 cs2 d3 hgo
        cases h
        omega

theorem drawMany_some_size
    (π : List PlayableWhiteCard → List PlayableWhiteCard)
    (hπ : ∀ l, (π l).length = l.length) (n : Nat) (d : WhiteCardDeck)
    (cs : List PlayableWhiteCard) (d1 : WhiteCardDeck)
    (h : d.drawMany π n = some (cs, d1)) : d1.size + n = d.size := by
  unfold WhiteCardDeck.drawMany at h
  by_cases hc : d.drawPile.length + d.discardPile.length < n
  · rw [if_pos hc] at h
    cases h
  · rw [if_neg hc] at h
    exact drawManyGo_some_size π hπ n d cs d1 h

theorem drawHandsGo_isSome_iff
    (π : List PlayableWhiteCard → List PlayableWhiteCard)
    (hπ : ∀ l, (π l).length = l.length) (handSize : Nat) :
    ∀ (hands : List (PlayerId × List PlayableWhiteCard)) (d : WhiteCardDeck),
      (WhiteCardGameplayManager.drawHandsGo π handSize hands d).isSome = true ↔
        WhiteCardGameplayManager.totalRefillNeed handSize hands ≤ d.size := by
  intro hands
  induction hands with
  | nil =>
    intro d
    simp [WhiteCardGameplayManager.drawHandsGo,
      WhiteCardGameplayManager.totalRefillNeed]
  | cons ph rest ih =>
    intro d
    obtain ⟨pid, hand⟩ := ph
    have hneed : WhiteCardGameplayManager.totalRefillNeed handSize
        ((pid, hand) :: rest)
        = usizeSub handSize hand.length
          + WhiteCardGameplayManager.totalRefillNeed handSize rest := by
      simp [WhiteCardGameplayManager.totalRefillNeed]
    rw [hneed]
    by_cases hpos : 0 < usizeSub handSize hand.length
    · constructor
      · intro hs
        unfold WhiteCardGameplayManager.drawHandsGo at hs
        simp only [Nat.max_zero] at hs
        rw [if_pos hpos] at hs
        cases hdm : d.drawMany π (usizeSub handSize hand.length) with
        | none => simp [hdm] at hs
        | some cd =>
          obtain ⟨cs, d1⟩ := cd
          simp only [hdm] at hs
          have hsz := drawMany_some_size π hπ _ d cs d1 hdm
          cases hgo : WhiteCardGameplayManager.drawHandsGo π handSize rest d1 with
          | none => simp [hgo] at hs
          | some r =>
            have := (ih d1).mp (by simp [hgo])
            omega
      · intro hle
        obtain ⟨cs, d1, hdm, hlen, hsz⟩ :=
          drawMany_spec π hπ (usizeSub handSize hand.length) d (by omega)
        unfold WhiteCardGameplayManager.drawHandsGo
        simp only [Nat.max_zero]
        rw [if_pos hpos, hdm]
        have hrest : (WhiteCardGameplayManager.drawHandsGo π handSize rest
            d1).isSome = true := (ih d1).mpr (by omega)
        cases hgo : WhiteCardGameplayManager.drawHandsGo π handSize rest d1 with
        | none => rw [hgo] at hrest; simp at hrest
        | some r => simp only [hgo]; rfl
    · have hz : usizeSub handSize hand.length = 0 := by omega
      rw [hz]
      unfold WhiteCardGameplayManager.drawHandsGo
      simp only [Nat.max_zero, hz]
      rw [if_neg (by omega : ¬ 0 < 0)]
      constructor
      · intro hs
        cases hgo : WhiteCardGameplayManager.drawHandsGo π handSize rest d with
        | none => simp [hgo] at hs
        | some r =>
          have := (ih d).mp (by simp [hgo])
          omega
      · intro hle
        have hrest : (WhiteCardGameplayManager.drawHandsGo π handSize rest
            d).isSome = true := (ih d).mpr (by omega)
        cases hgo : WhiteCardGameplayManager.drawHandsGo π handSize rest d with
        | none => rw [hgo] at hrest; simp at hrest
        | some r => simp only [hgo]; rfl

theorem drawHandsToFull_isSome_iff
    (π : List PlayableWhiteCard → List PlayableWhiteCard)
    (hπ : ∀ l, (π l).length = l.length) (m : WhiteCardGameplayManager) :
    (m.drawHandsToFull π).isSome = true ↔
      WhiteCardGameplayManager.totalRefillNeed m.handSize m.handsAndPlayedCards
        ≤ m.whiteCardDeck.size := by
  unfold WhiteCardGameplayManager.drawHandsToFull
  rw [← drawHandsGo_isSome_iff π hπ m.handSize m.handsAndPlayedCards
    m.whiteCardDeck]
  cases hgo : WhiteCardGameplayManager.drawHandsGo π m.handSize
      m.handsAndPlayedCards m.whiteCardDeck with
  | none => simp
  | some r => simp

/-- C2 amended: the refill in `draw_hands_to_full` succeeds exactly when the
white deck's draw and discard piles together hold the total number of cards
the refill needs.  The spec's stronger claim — that the shortage branch is
unreachable for every sequence of joins, leaves and rounds — is false:
nothing bounds the deck below `hand_size × players`
(`c2_short_deck_start_panics`). -/
theorem c2_draw_hands_to_full_success_iff_enough_cards
    (π : List PlayableWhiteCard → List PlayableWhiteCard)
    (hπ : ∀ l, (π l).length = l.length) (m : WhiteCardGameplayManager) :
    (m.drawHandsToFull π).isSome = true ↔
      WhiteCardGameplayManager.totalRefillNeed m.handSize m.handsAndPlayedCards
        ≤ m.whiteCardDeck.size :=
  drawHandsToFull_isSome_iff π hπ m

/-- C2 witness: on the well-stocked sample game the refill succeeds, by the
amended equivalence applied at the identity permutation. -/
theorem c2_draw_hands_witness :
    (gRichDeck.gameplayManager.drawHandsToFull id).isSome = true :=
  (c2_draw_hands_to_full_success_iff_enough_cards id (fun _ => rfl)
    gRichDeck.gameplayManager).mpr (by decide)

/-! ## Refill and auto-play lemmas (toward C3) -/

theorem drawManyGo_some_len
    (π : List PlayableWhiteCard → List PlayableWhiteCard) :
    ∀ (n : Nat) (d : WhiteCardDeck) (cs : List PlayableWhiteCard)
      (d1 : WhiteCardDeck), d.drawManyGo π n = some (cs, d1) →
      cs.length = n := by
  intro n
  induction n with
  | zero =>
    intro d cs d1 h
    unfold WhiteCardDeck.drawManyGo at h
    cases h
    rfl
  | succ k ih =>
    intro d cs d1 h
    unfold WhiteCardDeck.drawManyGo at h
    cases hone : d.drawOne π with
    | none => rw [hone] at h; cases h
    | some cd =>
      obtain ⟨c, d2⟩ := cd
      rw [hone] at h
      cases hgo : d2.drawManyGo π k with
      | none => simp [hgo] at h
      | some r =>
        obtain ⟨cs2, d3⟩ := r
        simp only [hgo] at h
        have := ih d2 cs2 d3 hgo
        cases h
        simp [this]

theorem drawMany_some_len
    (π : List PlayableWhiteCard → List PlayableWhiteCard) (n : Nat)
    (d : WhiteCardDeck) (cs : List PlayableWhiteCard) (d1 : WhiteCardDeck)
    (h : d.drawMany π n = some (cs, d1)) : cs.length = n := by
  unfold WhiteCardDeck.drawMany at h
  by_cases hc : d.drawPile.length + d.discardPile.length < n
  · rw [if_pos hc] at h
    cases h
  · rw [if_neg hc] at h
    exact drawManyGo_some_len π n d cs d1 h

theorem drawHandsGo_lengths
    (π : List PlayableWhiteCard → List PlayableWhiteCard) (handSize : Nat) :
    ∀ (hands : List (PlayerId × List PlayableWhiteCard)) (d : WhiteCardDeck)
      (hands1 : List (PlayerId × List PlayableWhiteCard))
      (d1 : WhiteCardDeck),
      WhiteCardGameplayManager.drawHandsGo π handSize hands d
        = some (hands1, d1) →
      (∀ p ∈ hands, p.2.length ≤ handSize) →
      hands1.map (fun p => (p.1, p.2.length))
        = hands.map (fun p => (p.1, handSize)) := by
  intro hands
  induction hands with
  | nil =>
    intro d hands1 d1 h _
    unfold WhiteCardGameplayManager.drawHandsGo at h
    cases h
    rfl
  | cons ph rest ih =>
    intro d hands1 d1 h hbound
    obtain ⟨pid, hand⟩ := ph
    have hble : hand.length ≤ handSize := hbound (pid, hand) (by simp)
    have hsub : usizeSub handSize hand.length = handSize - hand.length := by
      unfold usizeSub
      rw [if_pos hble]
    unfold WhiteCardGameplayManager.drawHandsGo at h
    simp only [Nat.max_zero, hsub] at h
    by_cases hpos : 0 < handSize - hand.length
    · rw [if_pos hpos] at h
      cases hdm : d.drawMany π (handSize - hand.length) with
      | none => rw [hdm] at h; cases h
      | some cd =>
        obtain ⟨cs, d2⟩ := cd
        simp only [hdm] at h
        have hlen := drawMany_some_len π _ d cs d2 hdm
        cases hgo : WhiteCardGameplayManager.drawHandsGo π handSize rest d2 with
        | none => simp [hgo] at h
        | some r =>
          obtain ⟨hands2, d3⟩ := r
          simp only [hgo] at h
          have hih := ih d2 hands2 d3 hgo
            (fun p hp => hbound p (List.mem_cons_of_mem _ hp))
          cases h
          simp only [List.map_cons, hih, List.length_append, hlen]
          have : hand.length + (handSize - hand.length) = handSize := by omega
          rw [this]
    · rw [if_neg hpos] at h
      have heq : hand.length = handSize := by omega
      cases hgo : WhiteCardGameplayManager.drawHandsGo π handSize rest d with
      | none => simp [hgo] at h
      | some r =>
        obtain ⟨hands2, d3⟩ := r
        simp only [hgo] at h
        have hih := ih d hands2 d3 hgo
          (fun p hp => hbound p (List.mem_cons_of_mem _ hp))
        cases h
        simp only [List.map_cons, hih, heq]

theorem drawHandsToFull_spec
    (π : List PlayableWhiteCard → List PlayableWhiteCard)
    (m m2 : WhiteCardGameplayManager)
    (h : m.drawHandsToFull π = some m2)
    (hbound : ∀ p ∈ m.handsAndPlayedCards, p.2.length ≤ m.handSize) :
    m2.handsAndPlayedCards.map (fun p => (p.1, p.2.length))
      = m.handsAndPlayedCards.map (fun p => (p.1, m.handSize)) ∧
    m2.playedCards = m.playedCards ∧ m2.handSize = m.handSize := by
  unfold WhiteCardGameplayManager.drawHandsToFull at h
  cases hgo : WhiteCardGameplayManager.drawHandsGo π m.handSize
      m.handsAndPlayedCards m.whiteCardDeck with
  | none => rw [hgo] at h; cases h
  | some r =>
    obtain ⟨hands1, d1⟩ := r
    rw [hgo] at h
    cases h
    exact ⟨drawHandsGo_lengths π m.handSize m.handsAndPlayedCards
      m.whiteCardDeck hands1 d1 hgo hbound, rfl, rfl⟩

theorem alistGet_insert_mem {α : Type} (k : PlayerId) (v : α)
    (l : List (PlayerId × α)) (q : PlayerId × α)
    (h : q ∈ alistInsert k v l) : q ∈ l ∨ q.1 = k := by
  unfold alistInsert at h
  by_cases hc : l.any (fun p => p.1 = k)
  · rw [if_pos hc] at h
    obtain ⟨p, hp, hq⟩ := List.mem_map.mp h
    by_cases hpk : p.1 = k
    · rw [if_pos hpk] at hq
      right
      rw [← hq]
    · rw [if_neg hpk] at hq
      left
      rw [← hq]
      exact hp
  · rw [if_neg hc] at h
    rcases List.mem_append.mp h with hl | hr
    · exact Or.inl hl
    · right
      simp only [List.mem_singleton] at hr
      rw [hr]

theorem alistGet_isSome_any {α : Type} (pid : PlayerId)
    (l : List (PlayerId × α)) :
    (alistGet pid l).isSome = l.any (fun p => p.1 = pid) := by
  unfold alistGet
  induction l with
  | nil => simp
  | cons x xs ih =>
    by_cases hxp : x.1 = pid
    · rw [List.find?_cons_of_pos _ (by simp [hxp])]
      simp [hxp]
    · rw [List.find?_cons_of_neg _ (by simp [hxp])]
      simp only [List.any_cons, ih]
      simp [hxp]

theorem alistInsert_any_key {α : Type} (k pid : PlayerId) (v : α)
    (l : List (PlayerId × α)) :
    (alistInsert k v l).any (fun p => p.1 = pid)
      = (l.any (fun p => p.1 = pid) || pid = k) := by
  unfold alistInsert
  by_cases hc : l.any (fun p => p.1 = k)
  · rw [if_pos hc]
    rw [List.any_map]
    have hfun : ((fun p => decide (p.1 = pid)) ∘ fun p =>
        if p.1 = k then (k, v) else p)
        = (fun p : PlayerId × α => decide (p.1 = pid)) := by
      funext p
      simp only [Function.comp_apply]
      by_cases hpkk : p.1 = k
      · rw [if_pos hpkk, hpkk]
      · rw [if_neg hpkk]
    rw [hfun]
    by_cases hpk : pid = k
    · obtain ⟨w, hw, hwk⟩ := List.any_eq_true.mp hc
      have hl : l.any (fun p => decide (p.1 = pid)) = true :=
        List.any_eq_true.mpr ⟨w, hw, by
          rw [hpk]
          exact hwk⟩
      simp [hl]
    · simp [hpk]
  · rw [if_neg hc]
    rw [List.any_append]
    simp [eq_comm]

theorem alistGet_insert_self_isSome {α : Type} (k : PlayerId) (v : α)
    (l : List (PlayerId × α)) :
    (alistGet k (alistInsert k v l)).isSome = true := by
  rw [alistGet_isSome_any, alistInsert_any_key]
  simp

theorem alistGet_insert_preserve {α : Type} (k pid : PlayerId) (v : α)
    (l : List (PlayerId × α))
    (h : (alistGet pid l).isSome = true) :
    (alistGet pid (alistInsert k v l)).isSome = true := by
  rw [alistGet_isSome_any] at h
  rw [alistGet_isSome_any, alistInsert_any_key, h]
  rfl

theorem autoPlayStep_mem (af : Nat)
    (played : List (PlayerId × List PlayableWhiteCard))
    (p : PlayerId × List PlayableWhiteCard)
    (q : PlayerId × List PlayableWhiteCard)
    (h : q ∈ autoPlayStep af played p) :
    q ∈ played ∨ ∃ id, q.1 = PlayerId.artificialPlayer id := by
  unfold autoPlayStep at h
  split at h
  next id heq =>
    split at h
    next => exact Or.inl h
    next =>
      split at h
      next =>
        rcases alistGet_insert_mem p.1 _ played q h with hq | hq
        · exact Or.inl hq
        · exact Or.inr ⟨id, by rw [hq, heq]⟩
      next => exact Or.inl h
  next u heq => exact Or.inl h

theorem autoPlayFold_mem (af : Nat) :
    ∀ (hands : List (PlayerId × List PlayableWhiteCard))
      (played : List (PlayerId × List PlayableWhiteCard))
      (q : PlayerId × List PlayableWhiteCard),
      q ∈ hands.foldl (autoPlayStep af) played →
      q ∈ played ∨ ∃ id, q.1 = PlayerId.artificialPlayer id := by
  intro hands
  induction hands with
  | nil =>
    intro played q h
    exact Or.inl h
  | cons p rest ih =>
    intro played q h
    rcases ih (autoPlayStep af played p) q h with hq | hq
    · exact autoPlayStep_mem af played p q hq
    · exact Or.inr hq

theorem autoPlayStep_preserve (af : Nat)
    (played : List (PlayerId × List PlayableWhiteCard))
    (p : PlayerId × List PlayableWhiteCard) (pid : PlayerId)
    (h : (alistGet pid played).isSome = true) :
    (alistGet pid (autoPlayStep af played p)).isSome = true := by
  unfold autoPlayStep
  split
  next id heq =>
    split
    next => exact h
    next =>
      split
      next => exact alistGet_insert_preserve p.1 pid _ played h
      next => exact h
  next u heq => exact h

theorem autoPlayFold_preserve (af : Nat) :
    ∀ (hands : List (PlayerId × List PlayableWhiteCard))
      (played : List (PlayerId × List PlayableWhiteCard)) (pid : PlayerId),
      (alistGet pid played).isSome = true →
      (alistGet pid (hands.foldl (autoPlayStep af) played)).isSome = true := by
  intro hands
  induction hands with
  | nil =>
    intro played pid h
    exact h
  | cons p rest ih =>
    intro played pid h
    exact ih _ pid (autoPlayStep_preserve af played p pid h)

theorem autoPlayFold_complete (af : Nat) :
    ∀ (hands : List (PlayerId × List PlayableWhiteCard))
      (played : List (PlayerId × List PlayableWhiteCard))
      (p : PlayerId × List PlayableWhiteCard), p ∈ hands →
      (∃ id, p.1 = PlayerId.artificialPlayer id) → af ≤ p.2.length →
      (alistGet p.1 (hands.foldl (autoPlayStep af) played)).isSome = true := by
  intro hands
  induction hands with
  | nil =>
    intro played p hp
    cases hp
  | cons q rest ih =>
    intro played p hp hart hle
    rcases List.mem_cons.mp hp with hpq | hprest
    · subst hpq
      rw [List.foldl_cons]
      apply autoPlayFold_preserve af rest (autoPlayStep af played p) p.1
      unfold autoPlayStep
      split
      next id heq =>
        split
        next h1 => exact h1
        next => exact alistGet_insert_self_isSome p.1 _ played
      next u heq =>
        obtain ⟨id, hid⟩ := hart
        rw [hid] at heq
        cases heq
    · exact ih _ p hprest hart hle

/-- C3 amended: with the caller the owner, the game in `NotRunning`, enough
players (at least `MIN_PLAYERS_TO_PLAY = 3` total, at least 2 real), hands
within `hand_size`, and a white deck able to cover the refill (see C2),
`start` succeeds and enters `PlayPhase` with: past rounds cleared, the
*black* deck shuffled and reset, all scores reset to zero, staged plays
discarded (only fresh bot auto-plays remain staged), every hand refilled to
exactly `config.hand_size`, the judge set to the drawn random value modulo
the number of real players, and every bot with a full-enough hand
auto-played.  The white deck is *not* reshuffled at start
(`c3_white_deck_not_reshuffled_at_start`). -/
theorem c3_start_effects
    (g : Game) (πb : List BlackCardInRound → List BlackCardInRound)
    (πw : List PlayableWhiteCard → List PlayableWhiteCard)
    (rand now : Nat) (userName : String)
    (hπw : ∀ l, (πw l).length = l.length)
    (hown : g.playerManager.isOwner userName = true)
    (hstage : g.stage = .notRunning)
    (henough : g.hasEnoughPlayersToPlay = true)
    (hbne : πb (g.blackCardDeck.drawPile ++ g.blackCardDeck.discardPile) ≠ [])
    (hhs : g.gameplayManager.handSize = g.config.handSize)
    (hsuff : WhiteCardGameplayManager.totalRefillNeed
        g.gameplayManager.handSize
        g.gameplayManager.discardPlayedCards.handsAndPlayedCards
      ≤ g.gameplayManager.discardPlayedCards.whiteCardDeck.size)
    (hbound : ∀ p ∈ g.gameplayManager.discardPlayedCards.handsAndPlayedCards,
        p.2.length ≤ g.gameplayManager.handSize) :
    (Game.start πb πw rand now userName g).1 = .ok () ∧
    (Game.start πb πw rand now userName g).2.stage = .playPhase ∧
    (Game.start πb πw rand now userName g).2.pastRounds = [] ∧
    (Game.start πb πw rand now userName g).2.blackCardDeck
      = g.blackCardDeck.shuffleAndReset πb ∧
    (∀ p ∈ (Game.start πb πw rand now userName g).2.playerManager.realPlayers,
      p.score = 0) ∧
    (∀ p ∈ (Game.start πb πw rand now userName
        g).2.playerManager.artificialPlayers, p.score = 0) ∧
    (Game.start πb πw rand now userName g).2.playerManager.judgePlayerIndex
      = some (rand % g.playerManager.realPlayers.length) ∧
    (∀ p ∈ (Game.start πb πw rand now userName
        g).2.gameplayManager.handsAndPlayedCards,
      p.2.length = g.config.handSize) ∧
    (∀ q ∈ (Game.start πb πw rand now userName
        g).2.gameplayManager.playedCards,
      ∃ id, q.1 = PlayerId.artificialPlayer id) ∧
    (∀ bcv, (g.blackCardDeck.shuffleAndReset πb).getCurrentBlackCard
        = some bcv →
      ∀ p ∈ (Game.start πb πw rand now userName
          g).2.gameplayManager.handsAndPlayedCards,
        (∃ id, p.1 = PlayerId.artificialPlayer id) →
        getAnswerFieldsFromBlackCardInRound bcv ≤ p.2.length →
        (alistGet p.1 (Game.start πb πw rand now userName
          g).2.gameplayManager.playedCards).isSome = true) := by
  have hrun : g.isRunning = false := by
    simp [Game.isRunning, hstage]
  have hsome : ((g.gameplayManager.discardPlayedCards).drawHandsToFull
      πw).isSome = true :=
    (drawHandsToFull_isSome_iff πw hπw _).mpr hsuff
  cases hm : (g.gameplayManager.discardPlayedCards).drawHandsToFull πw with
  | none => rw [hm] at hsome; cases hsome
  | some m2 =>
  obtain ⟨hlens, hplayed, hhs2⟩ :=
    drawHandsToFull_spec πw g.gameplayManager.discardPlayedCards m2 hm hbound
  have hplayed0 : m2.playedCards = [] := hplayed
  cases hbc : (g.blackCardDeck.shuffleAndReset πb).getCurrentBlackCard with
  | none =>
    exact absurd (List.getLast?_eq_none_iff.mp hbc) hbne
  | some bcv =>
  have hred : Game.start πb πw rand now userName g
      = (.ok (), Game.updateLastActivityTime now
          { g with
            playerManager :=
              (g.playerManager.setRandomJudge rand).resetPlayerScores
            pastRounds := []
            blackCardDeck := g.blackCardDeck.shuffleAndReset πb
            gameplayManager := m2.playForArtificialPlayers bcv
            stage := .playPhase }) := by
    unfold Game.start
    rw [if_neg (not_not_intro hown), if_neg (by simp [hrun]),
      if_neg (not_not_intro henough)]
    show (match (g.gameplayManager.discardPlayedCards).drawHandsToFull πw with
      | none => _
      | some m1 => _) = _
    rw [hm]
    show (match (g.blackCardDeck.shuffleAndReset πb).getCurrentBlackCard with
      | none => _
      | some currentBlackCard => _) = _
    rw [hbc]
  rw [hred]
  refine ⟨rfl, rfl, rfl, rfl, ?_, ?_, rfl, ?_, ?_, ?_⟩
  · intro p hp
    simp only [Game.updateLastActivityTime, PlayerManager.resetPlayerScores]
      at hp
    obtain ⟨q, _, hq⟩ := List.mem_map.mp hp
    rw [← hq]
  · intro p hp
    simp only [Game.updateLastActivityTime, PlayerManager.resetPlayerScores]
      at hp
    obtain ⟨q, _, hq⟩ := List.mem_map.mp hp
    rw [← hq]
  · intro p hp
    have hp2 : p ∈ m2.handsAndPlayedCards := hp
    have hmem : (p.1, p.2.length) ∈ m2.handsAndPlayedCards.map
        (fun p => (p.1, p.2.length)) :=
      List.mem_map.mpr ⟨p, hp2, rfl⟩
    rw [hlens] at hmem
    obtain ⟨q, _, hq⟩ := List.mem_map.mp hmem
    have hsnd := congrArg Prod.snd hq
    simp only at hsnd
    rw [← hsnd]
    exact hhs
  · intro q hq
    have hq2 : q ∈ (m2.playForArtificialPlayers bcv).playedCards := hq
    unfold WhiteCardGameplayManager.playForArtificialPlayers at hq2
    rcases autoPlayFold_mem _ m2.handsAndPlayedCards m2.playedCards q hq2
      with hmem | hart
    · rw [hplayed0] at hmem
      cases hmem
    · exact hart
  · intro bcv2 hbcv2 p hp hart hle
    cases hbcv2
    have hp2 : p ∈ m2.handsAndPlayedCards := hp
    exact autoPlayFold_complete _ m2.handsAndPlayedCards m2.playedCards p hp2
      hart hle

theorem filter_prefix_get {α : Type} (p : α → Bool) :
    ∀ (l : List α) (k : Nat),
      (∀ i, i ≤ k → ∀ x, l.get? i = some x → p x = true) →
      k < l.length →
      (l.filter p).get? k = l.get? k ∧ k < (l.filter p).length := by
  intro l
  induction l with
  | nil =>
    intro k _ hk
    simp at hk
  | cons x xs ih =>
    intro k hpre hk
    have hx : p x = true := hpre 0 (Nat.zero_le k) x rfl
    rw [List.filter_cons_of_pos hx]
    cases k with
    | zero => simp
    | succ j =>
      have hpre2 : ∀ i, i ≤ j → ∀ y, xs.get? i = some y → p y = true := by
        intro i hi y hy
        exact hpre (i + 1) (by omega) y (by simpa using hy)
      have hj : j < xs.length := by
        simp only [List.length_cons] at hk
        omega
      obtain ⟨hget, hlen⟩ := ih j hpre2 hj
      refine ⟨by simpa using hget, ?_⟩
      simp only [List.length_cons]
      omega

/-- C5 amended: on removing a real player while a judge is set, the code
keeps exactly the stated index behavior — empty roster drops the judge, an
index equal to the new length wraps to 0, and otherwise the *index* is
unchanged — but the judge's identity is preserved only when no removed
occurrence sits at or before the judge's slot; removing a player in front
of the judge keeps the index and silently shifts the judge to the next user
(`c5_judge_identity_not_preserved`). -/
theorem c5_remove_player_judge_update
    (pm : PlayerManager) (userName : String) (k : Nat)
    (hj : pm.judgePlayerIndex = some k) :
    ((pm.removePlayer (.realUser userName)).realPlayers.isEmpty = true →
      (pm.removePlayer (.realUser userName)).judgePlayerIndex = none) ∧
    ((pm.removePlayer (.realUser userName)).realPlayers.isEmpty = false →
      (pm.removePlayer (.realUser userName)).realPlayers.length = k →
      (pm.removePlayer (.realUser userName)).judgePlayerIndex = some 0) ∧
    ((pm.removePlayer (.realUser userName)).realPlayers.isEmpty = false →
      (pm.removePlayer (.realUser userName)).realPlayers.length ≠ k →
      (pm.removePlayer (.realUser userName)).judgePlayerIndex = some k) ∧
    ((∀ i, i ≤ k → ∀ p, pm.realPlayers.get? i = some p →
        PlayerManager.playerHasUserName userName p = false) →
      k < pm.realPlayers.length →
      (pm.removePlayer (.realUser userName)).judgePlayerIndex = some k ∧
      (pm.removePlayer (.realUser userName)).getJudge = pm.getJudge) := by
  simp only [PlayerManager.removePlayer, PlayerManager.removeRealPlayerFromVecByName, hj]
  refine ⟨?_, ?_, ?_, ?_⟩
  · intro he
    simp only [he, if_true]
  · intro he hl
    simp only [he, Bool.false_eq_true, if_false, hl, if_true]
  · intro he hl
    simp only [he, Bool.false_eq_true, if_false, if_neg hl]
  · intro hpre hk
    have hget := filter_prefix_get
      (fun p => decide ¬ PlayerManager.playerHasUserName userName p = true) pm.realPlayers k
      (by
        intro i hi x hx
        simp only [decide_eq_true_iff]
        intro hpx
        rw [hpre i hi x hx] at hpx
        cases hpx)
      hk
    obtain ⟨hgk, hlk⟩ := hget
    have hne : ((pm.realPlayers.filter
        (fun p => decide ¬ PlayerManager.playerHasUserName userName p = true)).isEmpty)
        = false := by
      cases hfe : (pm.realPlayers.filter
          (fun p => decide ¬ PlayerManager.playerHasUserName userName p = true)) with
      | nil =>
        rw [hfe] at hlk
        simp at hlk
      | cons a as => simp [hfe]
    have hnl : (pm.realPlayers.filter
        (fun p => decide ¬ PlayerManager.playerHasUserName userName p = true)).length ≠ k :=
      by omega
    constructor
    · simp only [hne, Bool.false_eq_true, if_false, if_neg hnl]
    · simp only [PlayerManager.getJudge, hne, Bool.false_eq_true, if_false,
        if_neg hnl, hj, hgk]

/-- C5 witness of the amended theorem: removing `users/c` (positioned after
the judge `users/b`) keeps both the index and the judge's identity. -/
theorem c5_remove_player_judge_update_witness :
    (pmJudgeMid.removePlayer (.realUser "users/c")).judgePlayerIndex
      = some 1 ∧
    (pmJudgeMid.removePlayer (.realUser "users/c")).getJudge
      = pmJudgeMid.getJudge :=
  (c5_remove_player_judge_update pmJudgeMid "users/c" 1 rfl).2.2.2
    (by decide) (by decide)

/-- C3 witness: `start` on the well-stocked stopped game succeeds, by the
amended theorem applied at identity permutations and random draw 0. -/
theorem c3_start_effects_witness :
    (Game.start id id 0 10 "users/0" gRichDeck).1 = .ok () ∧
    (Game.start id id 0 10 "users/0" gRichDeck).2.stage = .playPhase :=
  ⟨(c3_start_effects gRichDeck id id 0 10 "users/0" (fun _ => rfl) rfl rfl rfl
      (by decide) rfl (by decide) (by decide)).1,
    (c3_start_effects gRichDeck id id 0 10 "users/0" (fun _ => rfl) rfl rfl rfl
      (by decide) rfl (by decide) (by decide)).2.1⟩

/-- C10: `get_user_view` is total — on every game whose black deck respects
the constructor's non-emptiness invariant it returns `Ok` for every user
name, member or not, and the hand field is empty whenever the user has no
hand in the gameplay manager. -/
theorem c10_get_user_view_total (g : Game) (userName : String)
    (hbd : g.isRunning = true → g.blackCardDeck.drawPile ≠ []) :
    ∃ v, g.getUserView userName = .ok v ∧
      (alistGet (.realUser userName) g.gameplayManager.handsAndPlayedCards
          = none →
        v.hand = []) := by
  unfold Game.getUserView
  have hcond : (g.isRunning && g.blackCardDeck.drawPile.isEmpty) = false := by
    cases hr : g.isRunning with
    | false => simp
    | true =>
      simp only [Bool.true_and]
      have hne := hbd hr
      cases hd : g.blackCardDeck.drawPile with
      | nil => exact absurd hd hne
      | cons x xs => simp
  rw [if_neg (by simp [hcond])]
  refine ⟨_, rfl, ?_⟩
  intro hnone
  show (WhiteCardGameplayManager.getHandBelongingToPlayer
    (.realUser userName) g.gameplayManager).getD [] = []
  unfold WhiteCardGameplayManager.getHandBelongingToPlayer
  rw [hnone]
  rfl

/-- C10 witness: the view of a non-member on the sample stopped game. -/
theorem c10_get_user_view_total_witness :
    ∃ v, gShortDeck.getUserView "users/zzz" = .ok v ∧ v.hand = [] := by
  obtain ⟨v, hv, hh⟩ :=
    c10_get_user_view_total gShortDeck "users/zzz" (fun h => by cases h)
  exact ⟨v, hv, hh rfl⟩

/-! ## `play_cards` lemmas (toward C6) -/

theorem validateSubmittedCard_error_shape (config : ValidatedGameConfig)
    (card : PlayableWhiteCard) (e : StatusMsg)
    (h : validateSubmittedCard config card = .error e) :
    ∃ msg, e = .invalidArgument msg := by
  unfold validateSubmittedCard at h
  split at h
  · split at h
    · cases h
      exact ⟨_, rfl⟩
    · cases h
  · split at h
    · cases h
      exact ⟨_, rfl⟩
    · split at h
      · cases h
        exact ⟨_, rfl⟩
      · cases h
  · split at h
    · cases h
      exact ⟨_, rfl⟩
    · cases h
  · cases h

theorem playCardsLoop_error_shape (pid : PlayerId)
    (config : ValidatedGameConfig) (m : WhiteCardGameplayManager) :
    ∀ (cards : List PlayableWhiteCard) (e : StatusMsg),
      WhiteCardGameplayManager.playCardsLoop pid config m cards = .error e →
      ∃ msg, e = .invalidArgument msg := by
  intro cards
  induction cards with
  | nil =>
    intro e h
    unfold WhiteCardGameplayManager.playCardsLoop at h
    cases h
  | cons card rest ih =>
    intro e h
    unfold WhiteCardGameplayManager.playCardsLoop at h
    cases hv : validateSubmittedCard config card with
    | error e1 =>
      rw [hv] at h
      cases h
      exact validateSubmittedCard_error_shape config card _ hv
    | ok u =>
      rw [hv] at h
      cases hl : m.getCardFromPlayerHand pid card with
      | none =>
        rw [hl] at h
        cases h
        exact ⟨_, rfl⟩
      | some handCard =>
        rw [hl] at h
        cases hrest : WhiteCardGameplayManager.playCardsLoop pid config m
            rest with
        | error e2 =>
          rw [hrest] at h
          have hih := ih e2 hrest
          cases h
          exact hih
        | ok cs =>
          rw [hrest] at h
          cases h

theorem getHandBelongingToPlayer_isSome (pid : PlayerId)
    (m : WhiteCardGameplayManager) (hand : List PlayableWhiteCard)
    (h : m.getHandBelongingToPlayer pid = some hand) :
    (alistGet pid m.handsAndPlayedCards).isSome = true := by
  unfold WhiteCardGameplayManager.getHandBelongingToPlayer at h
  cases hg : alistGet pid m.handsAndPlayedCards with
  | none => rw [hg] at h; cases h
  | some l => rfl

theorem playCardsLoop_ok_member (pid : PlayerId)
    (config : ValidatedGameConfig) (m : WhiteCardGameplayManager)
    (card : PlayableWhiteCard) (rest : List PlayableWhiteCard)
    (played : List PlayableWhiteCard)
    (h : WhiteCardGameplayManager.playCardsLoop pid config m (card :: rest)
      = .ok played) :
    (alistGet pid m.handsAndPlayedCards).isSome = true := by
  unfold WhiteCardGameplayManager.playCardsLoop at h
  cases hv : validateSubmittedCard config card with
  | error e1 => rw [hv] at h; cases h
  | ok u =>
    rw [hv] at h
    cases hl : m.getCardFromPlayerHand pid card with
    | none => rw [hl] at h; cases h
    | some handCard =>
      unfold WhiteCardGameplayManager.getCardFromPlayerHand at hl
      cases hh : m.getHandBelongingToPlayer pid with
      | none => rw [hh] at hl; cases hl
      | some l => exact getHandBelongingToPlayer_isSome pid m l hh

theorem playCardsForPlayer_error (pid : PlayerId)
    (cards : List PlayableWhiteCard) (bc : BlackCardInRound)
    (config : ValidatedGameConfig) (m : WhiteCardGameplayManager)
    (e : StatusMsg) (m1 : WhiteCardGameplayManager)
    (h : m.playCardsForPlayer pid cards bc config = (.error e, m1)) :
    m1 = m ∧ ∃ msg, e = .invalidArgument msg := by
  unfold WhiteCardGameplayManager.playCardsForPlayer at h
  by_cases hc : cards.length ≠ getAnswerFieldsFromBlackCardInRound bc
  · rw [if_pos hc] at h
    cases h
    exact ⟨rfl, _, rfl⟩
  · rw [if_neg hc] at h
    cases hl : WhiteCardGameplayManager.playCardsLoop pid config m cards with
    | error e1 =>
      rw [hl] at h
      cases h
      exact ⟨rfl, playCardsLoop_error_shape pid config m cards _ hl⟩
    | ok cs =>
      rw [hl] at h
      cases h

theorem playCardsForPlayer_ok (pid : PlayerId)
    (cards : List PlayableWhiteCard) (bc : BlackCardInRound)
    (config : ValidatedGameConfig) (m : WhiteCardGameplayManager)
    (u : Unit) (m1 : WhiteCardGameplayManager)
    (h : m.playCardsForPlayer pid cards bc config = (.ok u, m1)) :
    cards.length = getAnswerFieldsFromBlackCardInRound bc ∧
    (cards ≠ [] → (alistGet pid m.handsAndPlayedCards).isSome = true) := by
  unfold WhiteCardGameplayManager.playCardsForPlayer at h
  by_cases hc : cards.length ≠ getAnswerFieldsFromBlackCardInRound bc
  · rw [if_pos hc] at h
    cases h
  · rw [if_neg hc] at h
    refine ⟨by omega, ?_⟩
    intro hne
    cases hl : WhiteCardGameplayManager.playCardsLoop pid config m cards with
    | error e1 => rw [hl] at h; cases h
    | ok cs =>
      cases cards with
      | nil => exact absurd rfl hne
      | cons card rest =>
        exact playCardsLoop_ok_member pid config m card rest cs hl

/-- C6: `play_cards` never panics (given the constructor's non-empty black
deck and a positive `answer_fields`); every rejection is an
`INVALID_ARGUMENT` that leaves the entire game state unchanged; success
implies the stage was `PlayPhase`, the caller was not the judge, had not
yet played, holds a hand entry (is an active real player), and submitted
exactly `answer_fields` cards; and after an accepted play the stage is
`JudgePhase` exactly when every non-judge real player has played. -/
theorem c6_play_cards_contract (g : Game) (userName : String)
    (cards : List PlayableWhiteCard) (now : Nat) (bc : BlackCardInRound)
    (hbc : g.blackCardDeck.getCurrentBlackCard = some bc)
    (haf : 1 ≤ getAnswerFieldsFromBlackCardInRound bc) :
    ((Game.playCards now userName cards g).1 ≠ .panicked) ∧
    (∀ e, (Game.playCards now userName cards g).1 = .err e →
      (Game.playCards now userName cards g).2 = g ∧
      ∃ msg, e = .invalidArgument msg) ∧
    ((Game.playCards now userName cards g).1 = .ok () →
      g.stage = .playPhase ∧
      g.playerManager.isJudge userName = false ∧
      g.gameplayManager.playerHasPlayedThisRound (.realUser userName)
        = false ∧
      cards.length = getAnswerFieldsFromBlackCardInRound bc ∧
      (alistGet (.realUser userName)
        g.gameplayManager.handsAndPlayedCards).isSome = true ∧
      ((Game.playCards now userName cards g).2.stage = .judgePhase ↔
        (Game.playCards now userName cards g).2.allPlayersHavePlayedThisRound
          = true) ∧
      ((Game.playCards now userName cards g).2.stage = .judgePhase ∨
        (Game.playCards now userName cards g).2.stage = .playPhase)) := by
  unfold Game.playCards
  by_cases h1 : g.stage ≠ Stage.playPhase
  · rw [if_pos h1]
    refine ⟨by simp, ?_, ?_⟩
    · intro e he
      cases he
      exact ⟨rfl, _, rfl⟩
    · intro hok
      cases hok
  rw [if_neg h1]
  have hstage : g.stage = .playPhase := of_not_not h1
  by_cases h2 : g.playerManager.isJudge userName = true
  · rw [if_pos h2]
    refine ⟨by simp, ?_, ?_⟩
    · intro e he
      cases he
      exact ⟨rfl, _, rfl⟩
    · intro hok
      cases hok
  rw [if_neg h2]
  have hjudge : g.playerManager.isJudge userName = false := by
    revert h2
    cases g.playerManager.isJudge userName <;> simp
  by_cases h3 : g.gameplayManager.playerHasPlayedThisRound
      (.realUser userName) = true
  · rw [if_pos h3]
    refine ⟨by simp, ?_, ?_⟩
    · intro e he
      cases he
      exact ⟨rfl, _, rfl⟩
    · intro hok
      cases hok
  rw [if_neg h3]
  have hplayed : g.gameplayManager.playerHasPlayedThisRound
      (.realUser userName) = false := by
    revert h3
    cases g.gameplayManager.playerHasPlayedThisRound (.realUser userName) <;>
      simp
  cases hbcm : g.blackCardDeck.getCurrentBlackCard with
  | none =>
    rw [hbcm] at hbc
    cases hbc
  | some bc2 =>
  rw [hbcm] at hbc
  injection hbc with hbceq
  subst hbceq
  dsimp only
  cases hpc : g.gameplayManager.playCardsForPlayer (.realUser userName) cards
      bc2 g.config with
  | mk r m1 =>
  cases r with
  | error e1 =>
    obtain ⟨hm1, hshape⟩ :=
      playCardsForPlayer_error (.realUser userName) cards bc2 g.config
        g.gameplayManager e1 m1 hpc
    refine ⟨by simp, ?_, ?_⟩
    · intro e he
      cases he
      refine ⟨?_, hshape⟩
      rw [hm1]
    · intro hok
      cases hok
  | ok u =>
    obtain ⟨hcount, hmem⟩ :=
      playCardsForPlayer_ok (.realUser userName) cards bc2 g.config
        g.gameplayManager u m1 hpc
    have hne : cards ≠ [] := by
      intro h0
      rw [h0] at hcount
      simp at hcount
      omega
    dsimp only
    by_cases hall : ({ g with gameplayManager := m1 }
        : Game).allPlayersHavePlayedThisRound = true
    · rw [if_pos hall]
      refine ⟨by simp, ?_, ?_⟩
      · intro e he
        cases he
      · intro _
        refine ⟨hstage, hjudge, hplayed, hcount, hmem hne, ?_, Or.inl rfl⟩
        constructor
        · intro _
          exact hall
        · intro _
          rfl
    · rw [if_neg hall]
      have hallf : ({ g with gameplayManager := m1 }
          : Game).allPlayersHavePlayedThisRound = false := by
        revert hall
        cases ({ g with gameplayManager := m1 }
          : Game).allPlayersHavePlayedThisRound <;> simp
      refine ⟨by simp, ?_, ?_⟩
      · intro e he
        cases he
      · intro _
        refine ⟨hstage, hjudge, hplayed, hcount, hmem hne, ?_, ?_⟩
        · constructor
          · intro hst
            rw [hstage] at hst
            cases hst
          · intro hap
            have hap2 : ({ g with gameplayManager := m1 }
                : Game).allPlayersHavePlayedThisRound = true := hap
            rw [hallf] at hap2
            cases hap2
        · right
          exact hstage

/-- C6 witness: a legal play by `users/1` in the running sample game. -/
theorem c6_play_cards_contract_witness :
    (Game.playCards 30 "users/1" [mkWhite "h10"] gPlayPhase).1 = .ok () ∧
    gPlayPhase.stage = .playPhase ∧
    (Game.playCards 30 "users/1" [mkWhite "h10"] gPlayPhase).2.stage
      = .playPhase :=
  ⟨rfl,
    ((c6_play_cards_contract gPlayPhase "users/1" [mkWhite "h10"] 30 blackOne
        rfl (by decide)).2.2 rfl).1,
    by
      rcases ((c6_play_cards_contract gPlayPhase "users/1" [mkWhite "h10"] 30
          blackOne rfl (by decide)).2.2 rfl).2.2.2.2.2.2 with h | h
      · cases h
      · exact h⟩

/-- C9 amended: `insert_game` on a list sorted by `create_time` keeps it
sorted, and places the new game directly after the games with strictly
earlier `create_time` — hence *before* every game with an equal
`create_time`: ties are broken by reverse insertion order, not insertion
order (`c9_equal_create_time_reversed`). -/
theorem c9_insert_game_sorted (g : Game) :
    ∀ l : List Game,
      List.Pairwise (fun a b => a.createTime ≤ b.createTime) l →
      ∃ l1 l2, l = l1 ++ l2 ∧ insertGame g l = l1 ++ g :: l2 ∧
        (∀ y ∈ l1, y.createTime < g.createTime) ∧
        (∀ y ∈ l2, g.createTime ≤ y.createTime) ∧
        List.Pairwise (fun a b => a.createTime ≤ b.createTime)
          (insertGame g l) := by
  intro l
  induction l with
  | nil =>
    intro _
    refine ⟨[], [], rfl, rfl, ?_, ?_, ?_⟩
    · intro y hy
      cases hy
    · intro y hy
      cases hy
    · exact List.Pairwise.cons (fun y hy => by cases hy) List.Pairwise.nil
  | cons x xs ih =>
    intro hs
    obtain ⟨hx, hxs⟩ := List.pairwise_cons.mp hs
    unfold insertGame
    by_cases hc : ((x :: xs).any fun y =>
        decide (y.createTime < g.createTime)) = true
    · rw [if_pos hc]
      have hxlt : x.createTime < g.createTime := by
        obtain ⟨y, hy, hylt⟩ := List.any_eq_true.mp hc
        have hylt2 : y.createTime < g.createTime := of_decide_eq_true hylt
        rcases List.mem_cons.mp hy with hyx | hyxs
        · rw [← hyx]
          exact hylt2
        · exact lt_of_le_of_lt (hx y hyxs) hylt2
      obtain ⟨l1, l2, he, hi, h1, h2, hp⟩ := ih hxs
      refine ⟨x :: l1, l2, by simp [he], by simp [hi], ?_, h2, ?_⟩
      · intro y hy
        rcases List.mem_cons.mp hy with hyx | hyl1
        · rw [hyx]
          exact hxlt
        · exact h1 y hyl1
      · rw [hi]
        rw [List.pairwise_cons]
        constructor
        · intro y hy
          rcases List.mem_append.mp hy with hyl1 | hygl2
          · exact hx y (by rw [he]; exact List.mem_append.mpr (Or.inl hyl1))
          · rcases List.mem_cons.mp hygl2 with hyg | hyl2
            · rw [hyg]
              exact le_of_lt hxlt
            · exact hx y (by rw [he]; exact List.mem_append.mpr (Or.inr hyl2))
        · rw [← hi]
          exact hp
    · rw [if_neg hc]
      have hge : ∀ y ∈ x :: xs, g.createTime ≤ y.createTime := by
        intro y hy
        by_contra hlt
        exact hc (List.any_eq_true.mpr ⟨y, hy, by
          simp only [decide_eq_true_iff]
          omega⟩)
      refine ⟨[], x :: xs, rfl, rfl, by simp, hge, ?_⟩
      rw [List.pairwise_cons]
      exact ⟨hge, hs⟩

/-- C9 witness: inserting into a sorted singleton, by the amended theorem. -/
theorem c9_insert_game_sorted_witness :
    ∃ l1 l2, ([mkTinyGame "gA" 5] : List Game) = l1 ++ l2 ∧
      insertGame (mkTinyGame "g2" 5) [mkTinyGame "gA" 5]
        = l1 ++ mkTinyGame "g2" 5 :: l2 ∧
      (∀ y ∈ l1, y.createTime < (mkTinyGame "g2" 5).createTime) ∧
      (∀ y ∈ l2, (mkTinyGame "g2" 5).createTime ≤ y.createTime) ∧
      List.Pairwise (fun a b => a.createTime ≤ b.createTime)
        (insertGame (mkTinyGame "g2" 5) [mkTinyGame "gA" 5]) :=
  c9_insert_game_sorted (mkTinyGame "g2" 5) [mkTinyGame "gA" 5] (by decide)

/-! ## Ban/unban lemmas (toward C8) -/

theorem removeReal_no_member (userName : String) (l : List Player) :
    ∀ p ∈ PlayerManager.removeRealPlayerFromVecByName userName l,
      PlayerManager.playerHasUserName userName p = false := by
  intro p hp
  unfold PlayerManager.removeRealPlayerFromVecByName at hp
  obtain ⟨_, hkeep⟩ := List.mem_filter.mp hp
  cases hh : PlayerManager.playerHasUserName userName p with
  | false => rfl
  | true =>
    rw [hh] at hkeep
    simp at hkeep

theorem userIsInGame_eq_any (userName : String) (pm : PlayerManager) :
    pm.userIsInGame userName
      = (pm.realPlayers ++ pm.queuedRealPlayers).any
          (PlayerManager.playerHasUserName userName) := by
  unfold PlayerManager.userIsInGame
  congr 1

theorem userIsInGame_remove (pm : PlayerManager) (userName : String) :
    (pm.removePlayer (.realUser userName)).userIsInGame userName = false := by
  rw [userIsInGame_eq_any]
  rw [List.any_eq_false]
  intro p hp
  rcases List.mem_append.mp hp with hreal | hq
  · have := removeReal_no_member userName pm.realPlayers p hreal
    simp [this]
  · have := removeReal_no_member userName pm.queuedRealPlayers p hq
    simp [this]

theorem userIsInGame_drain_remove (pm : PlayerManager) (userName : String) :
    ((pm.removePlayer
        (.realUser userName)).drainQueuedRealAndArtificialPlayers).userIsInGame
      userName = false := by
  rw [userIsInGame_eq_any]
  rw [List.any_eq_false]
  intro p hp
  simp only [PlayerManager.drainQueuedRealAndArtificialPlayers,
    PlayerManager.removePlayer, List.append_nil] at hp
  rcases List.mem_append.mp hp with hreal | hq
  · have := removeReal_no_member userName pm.realPlayers p hreal
    simp [this]
  · have := removeReal_no_member userName pm.queuedRealPlayers p hq
    simp [this]

theorem getOwner_remove (pm : PlayerManager) (userName : String)
    (owner : User) (ho : pm.getOwner = some owner)
    (hne : owner.name ≠ userName) :
    (pm.removePlayer (.realUser userName)).getOwner = some owner ∧
    ((pm.removePlayer
        (.realUser userName)).drainQueuedRealAndArtificialPlayers).getOwner
      = some owner := by
  unfold PlayerManager.getOwner at ho
  cases hl : pm.realPlayers with
  | nil =>
    rw [hl] at ho
    cases ho
  | cons p0 rest =>
    rw [hl] at ho
    simp only [List.head?] at ho
    have hp0 : p0.identifier = some (.user owner) := by
      cases hid : p0.identifier with
      | none => rw [hid] at ho; cases ho
      | some idf =>
        cases idf with
        | user u =>
          rw [hid] at ho
          cases ho
          rfl
        | artificialUser a b => rw [hid] at ho; cases ho
    have hkeep : PlayerManager.playerHasUserName userName p0 = false := by
      unfold PlayerManager.playerHasUserName
      rw [hp0]
      simp only [decide_eq_false_iff_not]
      exact hne
    have hfil : PlayerManager.removeRealPlayerFromVecByName userName
        pm.realPlayers
        = p0 :: PlayerManager.removeRealPlayerFromVecByName userName rest := by
      unfold PlayerManager.removeRealPlayerFromVecByName
      rw [hl]
      rw [List.filter_cons_of_pos (by simp [hkeep])]
    constructor
    · unfold PlayerManager.removePlayer PlayerManager.getOwner
      simp only [hfil, List.head?, hp0]
    · unfold PlayerManager.removePlayer
        PlayerManager.drainQueuedRealAndArtificialPlayers
        PlayerManager.getOwner
      simp only [hfil, List.cons_append, List.head?, hp0]

theorem stopAfterRemove_facts (g1 : Game) (now : Nat) (userName : String)
    (g2 : Game)
    (h : ({ g1 with
        playerManager := g1.playerManager.removePlayer (.realUser userName)
        gameplayManager := g1.gameplayManager.removePlayer (.realUser userName)
      } : Game).stopIfNotEnoughPlayers now = some g2) :
    g2.bannedUsers = g1.bannedUsers ∧
    g2.playerManager.userIsInGame userName = false ∧
    (∀ owner, g1.playerManager.getOwner = some owner →
      owner.name ≠ userName → g2.playerManager.getOwner = some owner) := by
  unfold Game.stopIfNotEnoughPlayers at h
  split at h
  · unfold Game.forceStop at h
    split at h
    · cases h
      exact ⟨rfl, userIsInGame_remove _ _,
        fun owner ho hne => (getOwner_remove _ _ _ ho hne).1⟩
    · unfold Game.addQueuedPlayersToGame at h
      dsimp only at h
      cases hq : ((g1.playerManager.removePlayer
            (.realUser userName)).queuedRealPlayers
          ++ (g1.playerManager.removePlayer
            (.realUser userName)).queuedArtificialPlayers).mapM
          playerIdFromPlayerProto with
      | none =>
        rw [hq] at h
        cases h
      | some pids =>
        rw [hq] at h
        cases h
        exact ⟨rfl, userIsInGame_drain_remove _ _,
          fun owner ho hne => (getOwner_remove _ _ _ ho hne).2⟩
  · cases h
    exact ⟨rfl, userIsInGame_remove _ _,
      fun owner ho hne => (getOwner_remove _ _ _ ho hne).1⟩

theorem removePlayer_game_facts (g : Game) (now : Nat) (userName : String)
    (g2 : Game) (h : g.removePlayer now (.realUser userName) = some g2) :
    g2.bannedUsers = g.bannedUsers ∧
    g2.playerManager.userIsInGame userName = false ∧
    (∀ owner, g.playerManager.getOwner = some owner →
      owner.name ≠ userName → g2.playerManager.getOwner = some owner) := by
  unfold Game.removePlayer at h
  dsimp only at h
  by_cases hjc : (g.isRunning && PlayerManager.isJudge userName g.playerManager
      && decide (g.stage ≠ Stage.roundEndPhase)) = true
  · rw [if_pos hjc] at h
    exact stopAfterRemove_facts
      { g with
        gameplayManager := g.gameplayManager.returnPlayedCardsToHands
        stage := .roundEndPhase } now userName g2 h
  · rw [if_neg hjc] at h
    exact stopAfterRemove_facts g now userName g2 h

theorem removeFirstBanned_none (userName : String) :
    ∀ l : List User, (∀ b ∈ l, b.name ≠ userName) →
      Game.removeFirstBannedByName userName l = none := by
  intro l
  induction l with
  | nil =>
    intro _
    rfl
  | cons u rest ih =>
    intro hl
    unfold Game.removeFirstBannedByName
    rw [if_neg (hl u (by simp))]
    rw [ih (fun b hb => hl b (List.mem_cons_of_mem _ hb))]
    rfl

theorem removeFirstBanned_append (userName : String) (u : User)
    (hu : u.name = userName) :
    ∀ l : List User, (∀ b ∈ l, b.name ≠ userName) →
      Game.removeFirstBannedByName userName (l ++ [u]) = some l := by
  intro l
  induction l with
  | nil =>
    intro _
    show Game.removeFirstBannedByName userName [u] = some []
    unfold Game.removeFirstBannedByName
    rw [if_pos hu]
  | cons v rest ih =>
    intro hl
    show Game.removeFirstBannedByName userName (v :: (rest ++ [u]))
      = some (v :: rest)
    unfold Game.removeFirstBannedByName
    rw [if_neg (hl v (by simp))]
    rw [ih (fun b hb => hl b (List.mem_cons_of_mem _ hb))]
    rfl

theorem userIsBanned_false_names (g : Game) (userName : String)
    (h : g.userIsBanned userName = false) :
    ∀ b ∈ g.bannedUsers, b.name ≠ userName := by
  intro b hb
  unfold Game.userIsBanned at h
  rw [List.any_eq_false] at h
  have := h b hb
  simpa using this


/-! ## Claim counterexamples on concrete states -/

/-- C1: the claim says a blank white card's caller-supplied `open_text` is
carried over into the staged copy.  The code stages the hand's copy
unchanged: a successful play of the blank `b1` submitted with `open_text`
"hello" stages the hand's sanitized blank whose `open_text` is `""`. -/
theorem c1_blank_open_text_not_carried_over :
    (WhiteCardGameplayManager.playCardsForPlayer (.realUser "users/1")
        [mkBlank "b1" "hello"] blackOne cfgOpenText mgrWithBlank).1
      = .ok () ∧
    alistGet (PlayerId.realUser "users/1")
        ((WhiteCardGameplayManager.playCardsForPlayer (.realUser "users/1")
          [mkBlank "b1" "hello"] blackOne cfgOpenText
          mgrWithBlank).2).playedCards
      = some [mkBlank "b1" ""] ∧
    mkBlank "b1" "" ≠ mkBlank "b1" "hello" :=
  ⟨rfl, rfl, by decide⟩

/-- C2 (counterexample to the literal claim): a stopped three-player game
whose white deck holds only four cards satisfies every precondition of
`start`, yet `start` panics in the hand refill because `draw_many` returns
`None`: the claimed deck-size invariant at round start does not hold for
all games. -/
theorem c2_short_deck_start_panics :
    (gShortDeck.start id id 0 0 "users/0").1 = .panicked :=
  rfl

/-- C3 (counterexample to the "shuffle both decks" clause): a successful
`start` leaves the white deck's discard pile exactly in place (the card
`leftover` is still discarded), whereas a `shuffle_and_reset` of the white
deck would have emptied the discard pile into the draw pile. -/
theorem c3_white_deck_not_reshuffled_at_start :
    (gRichDeck.start id id 0 0 "users/0").1 = .ok () ∧
    ((gRichDeck.start id id 0 0
        "users/0").2).gameplayManager.whiteCardDeck.discardPile
      = [mkWhite "leftover"] :=
  ⟨rfl, rfl⟩

/-- C4: `list_white_card_texts` panics (`page_token.parse::<usize>()`
followed by `unwrap`) on the empty page token — the value every first-page
request carries — and on any other non-decimal token, instead of returning
an error status; a plain decimal token is accepted as the skip index. -/
theorem c4_list_white_card_texts_page_token :
    listWhiteCardTexts [gShortDeck] "g1" "" "" 2 = .panicked ∧
    listWhiteCardTexts [gShortDeck] "g1" "" "abc" 2 = .panicked ∧
    listWhiteCardTexts [gShortDeck] "g1" "" "0" 2
      = .ok { cardTexts := ["apple", "banana"]
              nextPageToken := "2"
              totalSize := 3 } :=
  ⟨rfl, rfl, rfl⟩

/-- C5 (counterexample to the identity-preservation clause): with real
players `users/a`, `users/b`, `users/c` and the judge at index 1
(`users/b`), removing `users/a` keeps the judge index 1 unchanged — but
index 1 now denotes `users/c`: the judge's semantic identity is not
preserved when the removed slot lies before the judge's. -/
theorem c5_judge_identity_not_preserved :
    pmJudgeMid.getJudge = some (mkUser "users/b") ∧
    (pmJudgeMid.removePlayer (.realUser "users/a")).judgePlayerIndex
      = some 1 ∧
    (pmJudgeMid.removePlayer (.realUser "users/a")).getJudge
      = some (mkUser "users/c") :=
  ⟨rfl, rfl, rfl⟩

/-- C9 (counterexample to the tie-order clause): inserting `g2` into a list
holding `gA` with the same create time places the later-inserted `g2`
first, not after the earlier-inserted `gA`. -/
theorem c9_equal_create_time_reversed :
    (mkTinyGame "g2" 5).createTime = (mkTinyGame "gA" 5).createTime ∧
    insertGame (mkTinyGame "g2" 5) [mkTinyGame "gA" 5]
      = [mkTinyGame "g2" 5, mkTinyGame "gA" 5] :=
  ⟨rfl, rfl⟩

/-- C8 (counterexample to the disjointness clause): the owner successfully
bans the queued user `users/9`, who is nevertheless still a member of the
game afterwards (still queued), because `ban_user` consults
`contains_player`, which sees only the active rosters and not the join
queues: `banned_users` and current membership are not disjoint after every
operation. -/
theorem c8_ban_queued_user_remains_member :
    (gQueuedJoiner.banUser 7 "users/0" (mkUser "users/9")).1 = .ok () ∧
    ((gQueuedJoiner.banUser 7 "users/0"
        (mkUser "users/9")).2).userIsBanned "users/9" = true ∧
    ((gQueuedJoiner.banUser 7 "users/0"
        (mkUser "users/9")).2).playerManager.userIsInGame "users/9" = true :=
  ⟨rfl, rfl, rfl⟩


theorem isOwner_getOwner (pm : PlayerManager) (caller : String)
    (h : pm.isOwner caller = true) :
    ∃ owner, pm.getOwner = some owner ∧ owner.name = caller := by
  unfold PlayerManager.isOwner at h
  cases hg : pm.getOwner with
  | none => rw [hg] at h; cases h
  | some owner =>
    rw [hg] at h
    exact ⟨owner, rfl, by simpa using h⟩

theorem isOwner_false_name (pm : PlayerManager) (owner : User) (n : String)
    (hg : pm.getOwner = some owner) (h : pm.isOwner n = false) :
    owner.name ≠ n := by
  unfold PlayerManager.isOwner at h
  rw [hg] at h
  simpa using h

theorem unban_after_ban_aux (gb g0 : Game) (now2 : Nat) (caller : String)
    (troll : User)
    (hbl : gb.bannedUsers = g0.bannedUsers ++ [troll])
    (hobo : gb.playerManager.isOwner caller = true)
    (hnb : ∀ b ∈ g0.bannedUsers, b.name ≠ troll.name) :
    (gb.unbanUser now2 caller troll.name).1 = .ok () ∧
    ((gb.unbanUser now2 caller troll.name).2).bannedUsers
      = g0.bannedUsers := by
  have key : Game.removeFirstBannedByName troll.name gb.bannedUsers
      = some g0.bannedUsers := by
    rw [hbl]
    exact removeFirstBanned_append troll.name troll rfl g0.bannedUsers hnb
  constructor
  · unfold Game.unbanUser
    split
    next hno => exact absurd hobo hno
    next => rw [key]
  · unfold Game.unbanUser
    split
    next hno => exact absurd hobo hno
    next =>
      rw [key]
      rfl

/-- C8 (amended): a successful owner ban of `troll` appends `troll` to
`banned_users`; the owner's subsequent unban of `troll` succeeds and
restores `banned_users` exactly to its prior value; if `troll` was an
active (non-queued) member, the ban removed them from membership; and
unbanning any user who is not banned fails with `INVALID_ARGUMENT` and
leaves the game unchanged. -/
theorem c8_ban_unban_laws (g : Game) (now1 now2 : Nat) (caller : String)
    (troll : User) (g1 : Game)
    (hban : g.banUser now1 caller troll = (.ok (), g1)) :
    g1.bannedUsers = g.bannedUsers ++ [troll] ∧
    ((g1.unbanUser now2 caller troll.name).1 = .ok () ∧
      ((g1.unbanUser now2 caller troll.name).2).bannedUsers
        = g.bannedUsers) ∧
    (g.containsPlayer (.realUser troll.name) = true →
      g1.playerManager.userIsInGame troll.name = false) ∧
    (∀ name, g.userIsBanned name = false →
      g.unbanUser now2 caller name
        = (.err (.invalidArgument "User is not banned from this game."),
            g)) := by
  unfold Game.banUser at hban
  by_cases howner : g.playerManager.isOwner caller = true
  case neg =>
    rw [if_pos howner] at hban
    simp at hban
  rw [if_neg (not_not_intro howner)] at hban
  by_cases htro : g.playerManager.isOwner troll.name = true
  case pos =>
    rw [if_pos htro] at hban
    simp at hban
  rw [if_neg htro] at hban
  by_cases hbnd : g.userIsBanned troll.name = true
  case pos =>
    rw [if_pos hbnd] at hban
    simp at hban
  rw [if_neg hbnd] at hban
  have hnbG : g.userIsBanned troll.name = false := by simpa using hbnd
  have htro2 : g.playerManager.isOwner troll.name = false := by
    simpa using htro
  dsimp only at hban
  by_cases hcp : g.containsPlayer (.realUser troll.name) = true
  case neg =>
    rw [if_neg hcp] at hban
    dsimp only at hban
    injection hban with hfst hsnd
    subst hsnd
    refine ⟨rfl, ?_, ?_, ?_⟩
    · exact unban_after_ban_aux _ g now2 caller troll rfl howner
        (userIsBanned_false_names g troll.name hnbG)
    · intro hcp2
      exact absurd hcp2 hcp
    · intro name hnb2
      unfold Game.unbanUser
      split
      next hno => exact absurd howner hno
      next =>
        rw [removeFirstBanned_none name g.bannedUsers
          (userIsBanned_false_names g name hnb2)]
  rw [if_pos hcp] at hban
  unfold Game.leave at hban
  by_cases hin : g.playerManager.userIsInGame troll.name = true
  case neg =>
    rw [if_pos hin] at hban
    dsimp only at hban
    simp at hban
  rw [if_neg (not_not_intro hin)] at hban
  cases hrm : g.removePlayer now1 (.realUser troll.name) with
  | none =>
    rw [hrm] at hban
    dsimp only at hban
    simp at hban
  | some gmid =>
    rw [hrm] at hban
    dsimp only at hban
    injection hban with hfst hsnd
    subst hsnd
    obtain ⟨f1, f2, f3⟩ := removePlayer_game_facts g now1 troll.name gmid hrm
    obtain ⟨owner, hgo, hon⟩ := isOwner_getOwner g.playerManager caller howner
    have hne : owner.name ≠ troll.name :=
      isOwner_false_name g.playerManager owner troll.name hgo htro2
    have hgo2 := f3 owner hgo hne
    have hobo : gmid.playerManager.isOwner caller = true := by
      unfold PlayerManager.isOwner
      rw [hgo2]
      exact decide_eq_true hon
    refine ⟨?_, ?_, ?_, ?_⟩
    · show gmid.bannedUsers ++ [troll] = g.bannedUsers ++ [troll]
      rw [f1]
    · exact unban_after_ban_aux _ g now2 caller troll
        (by show gmid.bannedUsers ++ [troll] = g.bannedUsers ++ [troll]
            rw [f1])
        hobo (userIsBanned_false_names g troll.name hnbG)
    · intro _
      exact f2
    · intro name hnb2
      unfold Game.unbanUser
      split
      next hno => exact absurd howner hno
      next =>
        rw [removeFirstBanned_none name g.bannedUsers
          (userIsBanned_false_names g name hnb2)]

/-- C8 witness: the owner of the running three-player game bans the active
member `users/2`, by the amended theorem: the ban appends `users/2` to the
banned list, the following unban restores the empty banned list, the
banned member is no longer in the game, and unbanning a never-banned name
errs with `INVALID_ARGUMENT`. -/
theorem c8_ban_unban_laws_witness :
    ((gPlayPhase.banUser 5 "users/0" (mkUser "users/2")).2).bannedUsers
        = gPlayPhase.bannedUsers ++ [mkUser "users/2"] ∧
    ((((gPlayPhase.banUser 5 "users/0" (mkUser "users/2")).2).unbanUser 6
          "users/0" (mkUser "users/2").name).1 = .ok () ∧
      (((((gPlayPhase.banUser 5 "users/0" (mkUser "users/2")).2).unbanUser 6
          "users/0" (mkUser "users/2").name).2)).bannedUsers
        = gPlayPhase.bannedUsers) ∧
    (gPlayPhase.containsPlayer (.realUser (mkUser "users/2").name) = true →
      (((gPlayPhase.banUser 5 "users/0"
          (mkUser "users/2")).2)).playerManager.userIsInGame
          (mkUser "users/2").name = false) ∧
    (∀ name, gPlayPhase.userIsBanned name = false →
      gPlayPhase.unbanUser 6 "users/0" name
        = (.err (.invalidArgument "User is not banned from this game."),
            gPlayPhase)) :=
  c8_ban_unban_laws gPlayPhase 5 6 "users/0" (mkUser "users/2")
    ((gPlayPhase.banUser 5 "users/0" (mkUser "users/2")).2) rfl


/-! ## Round-nonce input lemmas (toward C7) -/

theorem digitChar_toNat (m : Nat) (hm : m < 10) :
    (Nat.digitChar m).toNat = 48 + m := by
  interval_cases m <;> rfl

theorem digitChar_isDigit (m : Nat) (hm : m < 10) :
    (Nat.digitChar m).isDigit = true := by
  interval_cases m <;> decide

theorem decCharsVal_append_one (l : List Char) (c : Char) :
    decCharsVal (l ++ [c]) = decCharsVal l * 10 + (c.toNat - 48) := by
  simp [decCharsVal, List.foldl_append]

theorem natDecCharsAux_val :
    ∀ fuel n, n ≤ fuel → decCharsVal (natDecCharsAux fuel n) = n := by
  intro fuel
  induction fuel with
  | zero =>
    intro n hn
    have h0 : n = 0 := by omega
    subst h0
    rfl
  | succ fuel ih =>
    intro n hn
    by_cases hz : n = 0
    · subst hz
      rfl
    · have hred : natDecCharsAux (fuel + 1) n
          = natDecCharsAux fuel (n / 10) ++ [Nat.digitChar (n % 10)] := by
        simp only [natDecCharsAux, if_neg hz]
      rw [hred, decCharsVal_append_one]
      have hdiv : n / 10 < n := Nat.div_lt_self (by omega) (by omega)
      have hih := ih (n / 10) (by omega)
      rw [hih, digitChar_toNat (n % 10) (Nat.mod_lt _ (by omega))]
      omega

theorem natDecChars_val (n : Nat) : decCharsVal (natDecChars n) = n := by
  unfold natDecChars
  by_cases hz : n = 0
  · subst hz
    rfl
  · rw [if_neg hz]
    exact natDecCharsAux_val n n le_rfl

theorem natDecChars_inj (n m : Nat) (h : natDecChars n = natDecChars m) :
    n = m := by
  have hv := congrArg decCharsVal h
  rwa [natDecChars_val, natDecChars_val] at hv

theorem natDecCharsAux_digits :
    ∀ fuel n, ∀ c ∈ natDecCharsAux fuel n, c.isDigit = true := by
  intro fuel
  induction fuel with
  | zero =>
    intro n c hc
    simp only [natDecCharsAux] at hc
    cases hc
  | succ fuel ih =>
    intro n c hc
    by_cases hz : n = 0
    · subst hz
      simp only [natDecCharsAux, if_pos rfl] at hc
      cases hc
    · simp only [natDecCharsAux, if_neg hz] at hc
      rcases List.mem_append.mp hc with h1 | h2
      · exact ih _ c h1
      · have hc2 : c = Nat.digitChar (n % 10) := by simpa using h2
        subst hc2
        exact digitChar_isDigit _ (Nat.mod_lt _ (by omega))

theorem natDecChars_digits (n : Nat) :
    ∀ c ∈ natDecChars n, c.isDigit = true := by
  intro c hc
  unfold natDecChars at hc
  by_cases hz : n = 0
  · rw [if_pos hz] at hc
    have hc2 : c = Char.ofNat 48 := by simpa using hc
    subst hc2
    decide
  · rw [if_neg hz] at hc
    exact natDecCharsAux_digits n n c hc

theorem digit_run_split :
    ∀ a1 a2 b1 b2 : List Char,
      (∀ c ∈ a1, c.isDigit = true) → (∀ c ∈ a2, c.isDigit = true) →
      (∀ c, b1.head? = some c → c.isDigit = false) →
      (∀ c, b2.head? = some c → c.isDigit = false) →
      a1 ++ b1 = a2 ++ b2 → a1 = a2 ∧ b1 = b2 := by
  intro a1
  induction a1 with
  | nil =>
    intro a2 b1 b2 _ ha2 hb1 hb2 heq
    cases a2 with
    | nil => exact ⟨rfl, by simpa using heq⟩
    | cons d a2t =>
      simp only [List.nil_append, List.cons_append] at heq
      have hd : d.isDigit = true := ha2 d (by simp)
      have hnd := hb1 d (by rw [heq]; rfl)
      rw [hd] at hnd
      cases hnd
  | cons c a1t ih =>
    intro a2 b1 b2 ha1 ha2 hb1 hb2 heq
    cases a2 with
    | nil =>
      simp only [List.cons_append, List.nil_append] at heq
      have hc : c.isDigit = true := ha1 c (by simp)
      have hnd := hb2 c (by rw [← heq]; rfl)
      rw [hc] at hnd
      cases hnd
    | cons d a2t =>
      simp only [List.cons_append] at heq
      injection heq with h1 h2
      subst h1
      obtain ⟨he, hb⟩ := ih a2t b1 b2
        (fun x hx => ha1 x (List.mem_cons_of_mem _ hx))
        (fun x hx => ha2 x (List.mem_cons_of_mem _ hx)) hb1 hb2 h2
      exact ⟨by rw [he], hb⟩


theorem unescTo_escChars (a : List Char) :
    ∀ r, unescTo (escChars a ++ Char.ofNat 34 :: r) = some (a, r) := by
  induction a with
  | nil =>
    intro r
    show unescTo (Char.ofNat 34 :: r) = some ([], r)
    unfold unescTo
    rw [if_neg (by decide), if_pos rfl]
  | cons c at1 ih =>
    intro r
    have hesc : escChars (c :: at1) = escChar c ++ escChars at1 := by
      simp [escChars]
    rw [hesc, List.append_assoc]
    unfold escChar
    by_cases h34 : c = Char.ofNat 34
    · rw [if_pos h34]
      show unescTo (Char.ofNat 92 :: Char.ofNat 34 ::
          (escChars at1 ++ Char.ofNat 34 :: r)) = some (c :: at1, r)
      unfold unescTo
      rw [if_pos rfl]
      dsimp only
      rw [ih r, h34]
    · rw [if_neg h34]
      by_cases h92 : c = Char.ofNat 92
      · rw [if_pos h92]
        show unescTo (Char.ofNat 92 :: Char.ofNat 92 ::
            (escChars at1 ++ Char.ofNat 34 :: r)) = some (c :: at1, r)
        unfold unescTo
        rw [if_pos rfl]
        dsimp only
        rw [ih r, h92]
      · rw [if_neg h92]
        show unescTo (c :: (escChars at1 ++ Char.ofNat 34 :: r))
          = some (c :: at1, r)
        unfold unescTo
        rw [if_neg h92, if_neg h34, ih r]

theorem escChars_split (a b r s : List Char)
    (h : escChars a ++ Char.ofNat 34 :: r
      = escChars b ++ Char.ofNat 34 :: s) :
    a = b ∧ r = s := by
  have h1 := unescTo_escChars a r
  rw [h, unescTo_escChars b s] at h1
  injection h1 with h2
  injection h2 with h3 h4
  exact ⟨h3.symm, h4.symm⟩

theorem string_toList_inj (s1 s2 : String) (h : s1.toList = s2.toList) :
    s1 = s2 := by
  cases s1
  cases s2
  exact congrArg String.mk (by simpa [String.toList] using h)

theorem debugUser_inj (u1 u2 : User) (h : debugUser u1 = debugUser u2) :
    u1 = u2 := by
  have hq : ("\", display_name: \"".toList : List Char)
      = Char.ofNat 34 :: ", display_name: \"".toList := rfl
  have hr : ("\" \x7d".toList : List Char)
      = Char.ofNat 34 :: " \x7d".toList := rfl
  unfold debugUser at h
  simp only [hq, hr, List.append_assoc, List.cons_append] at h
  have h1 := List.append_cancel_left h
  obtain ⟨hn, hrest⟩ := escChars_split _ _ _ _ h1
  have h2 := List.append_cancel_left hrest
  obtain ⟨hd, _⟩ := escChars_split _ _ _ _ h2
  have hn2 := string_toList_inj _ _ hn
  have hd2 := string_toList_inj _ _ hd
  cases u1
  cases u2
  dsimp only at hn2 hd2
  rw [hn2, hd2]

theorem debugUser_head (u : User) : (debugUser u).head? = some 'U' := by
  have hp : ("User \x7b name: \"".toList : List Char)
      = 'U' :: "ser \x7b name: \"".toList := rfl
  unfold debugUser
  rw [hp]
  rfl


theorem roundNonceInput_inj (g1 g2 : Game) (hid : g1.gameId = g2.gameId)
    (h : g1.roundNonceInput = g2.roundNonceInput) :
    g1.pastRounds.length = g2.pastRounds.length ∧
    g1.playerManager.getJudge = g2.playerManager.getJudge := by
  unfold Game.roundNonceInput at h
  rw [hid] at h
  dsimp only at h
  cases hj1 : g1.playerManager.getJudge with
  | none =>
    rw [hj1] at h
    cases hj2 : g2.playerManager.getJudge with
    | none =>
      rw [hj2] at h
      simp only [List.append_nil, List.append_assoc] at h
      have h1 := List.append_cancel_left h
      exact ⟨natDecChars_inj _ _ h1, rfl⟩
    | some j2 =>
      rw [hj2] at h
      simp only [List.append_nil, List.append_assoc] at h
      have h1 := List.append_cancel_left h
      obtain ⟨ha, hb⟩ := digit_run_split
        (natDecChars g1.pastRounds.length)
        (natDecChars g2.pastRounds.length) [] (debugUser j2)
        (natDecChars_digits _) (natDecChars_digits _)
        (fun c hc => by cases hc)
        (fun c hc => by
          rw [debugUser_head] at hc
          injection hc with hc2
          subst hc2
          decide)
        (by simpa using h1)
      have hhd := debugUser_head j2
      rw [← hb] at hhd
      cases hhd
  | some j1 =>
    rw [hj1] at h
    cases hj2 : g2.playerManager.getJudge with
    | none =>
      rw [hj2] at h
      simp only [List.append_nil, List.append_assoc] at h
      have h1 := List.append_cancel_left h
      obtain ⟨ha, hb⟩ := digit_run_split
        (natDecChars g1.pastRounds.length)
        (natDecChars g2.pastRounds.length) (debugUser j1) []
        (natDecChars_digits _) (natDecChars_digits _)
        (fun c hc => by
          rw [debugUser_head] at hc
          injection hc with hc2
          subst hc2
          decide)
        (fun c hc => by cases hc)
        (by simpa using h1)
      have hhd := debugUser_head j1
      rw [hb] at hhd
      cases hhd
    | some j2 =>
      rw [hj2] at h
      simp only [List.append_assoc] at h
      have h1 := List.append_cancel_left h
      obtain ⟨ha, hb⟩ := digit_run_split
        (natDecChars g1.pastRounds.length)
        (natDecChars g2.pastRounds.length) (debugUser j1) (debugUser j2)
        (natDecChars_digits _) (natDecChars_digits _)
        (fun c hc => by
          rw [debugUser_head] at hc
          injection hc with hc2
          subst hc2
          decide)
        (fun c hc => by
          rw [debugUser_head] at hc
          injection hc with hc2
          subst hc2
          decide)
        h1
      exact ⟨natDecChars_inj _ _ ha, by rw [debugUser_inj _ _ hb]⟩

/-- C7: (determinism) two game states agreeing on game id, number of past
rounds, judge, the staged plays, and the roster resolution of the staged
players produce the identical ordered played-set list — in particular
repeated view calls on one state within a round do; (nonce distinctness)
two states with the same game id whose round index or judge identity
differ have different round-nonce digest input strings. -/
theorem c7_played_list_determinism_and_nonce (g1 g2 : Game)
    (hid : g1.gameId = g2.gameId) :
    ((g1.pastRounds.length = g2.pastRounds.length ∧
        g1.playerManager.getJudge = g2.playerManager.getJudge ∧
        g1.gameplayManager.playedCards = g2.gameplayManager.playedCards ∧
        ∀ p ∈ g1.gameplayManager.playedCards,
          g1.playerManager.getPlayer p.1 = g2.playerManager.getPlayer p.1) →
      g1.getPseudorandomOrderedWhiteCardsPlayedList
        = g2.getPseudorandomOrderedWhiteCardsPlayedList) ∧
    ((g1.pastRounds.length ≠ g2.pastRounds.length ∨
        g1.playerManager.getJudge ≠ g2.playerManager.getJudge) →
      g1.roundNonceInput ≠ g2.roundNonceInput) := by
  constructor
  · rintro ⟨hlen, hj, hpc, hpl⟩
    have hnonce : g1.roundNonceInput = g2.roundNonceInput := by
      unfold Game.roundNonceInput
      rw [hid, hlen, hj]
    unfold Game.getPseudorandomOrderedWhiteCardsPlayedList
    dsimp only
    rw [hnonce, ← hpc]
    exact congrArg (seededShuffle g2.roundNonceInput)
      (List.map_congr_left (fun p hp => by rw [hpl p hp]))
  · intro hne heq
    obtain ⟨hlen, hj⟩ := roundNonceInput_inj g1 g2 hid heq
    rcases hne with hd | hd
    · exact hd hlen
    · exact hd hj

/-- C7 witness: the two concrete running games share the game id, so the
determinism and nonce-distinctness laws apply to them. -/
theorem c7_played_list_determinism_and_nonce_witness :
    gPlayPhase.gameId = gQueuedJoiner.gameId ∧
    (((gPlayPhase.pastRounds.length = gQueuedJoiner.pastRounds.length ∧
        gPlayPhase.playerManager.getJudge
          = gQueuedJoiner.playerManager.getJudge ∧
        gPlayPhase.gameplayManager.playedCards
          = gQueuedJoiner.gameplayManager.playedCards ∧
        ∀ p ∈ gPlayPhase.gameplayManager.playedCards,
          gPlayPhase.playerManager.getPlayer p.1
            = gQueuedJoiner.playerManager.getPlayer p.1) →
      gPlayPhase.getPseudorandomOrderedWhiteCardsPlayedList
        = gQueuedJoiner.getPseudorandomOrderedWhiteCardsPlayedList) ∧
    ((gPlayPhase.pastRounds.length ≠ gQueuedJoiner.pastRounds.length ∨
        gPlayPhase.playerManager.getJudge
          ≠ gQueuedJoiner.playerManager.getJudge) →
      gPlayPhase.roundNonceInput ≠ gQueuedJoiner.roundNonceInput)) :=
  ⟨rfl, c7_played_list_determinism_and_nonce gPlayPhase gQueuedJoiner rfl⟩

end CrustyCards
